import Mathlib

/-!
Verification of the feature-visualization notebook
(`10_feature_visualization.ipynb`).

The notebook defines a class `FeatureVisualizer` with two methods:

* `create_feature_maximizer(self, layer_index, kernel_index, n_steps=10,
  gaussian_blur=0.1, imsize=64, upscaling_steps=10, upscaling_factor=1.2)` —
  gradient-based activation maximization with progressive upscaling;
* `get_mean_layer_activations(self, image_path, layer_index, imsize=224)` —
  per-kernel spatial mean of a layer's activation on a given image.

Shallow embedding conventions:

* tensor values are real numbers; lists model numpy/torch arrays
  (`Tensor3` is a channel-major C×H×W array, an `Image` is H×W×C);
* the external libraries (autograd's gradient, the Adam optimizer step,
  `skimage.transform.resize`, `PIL.Image.open`, `torchvision` resize, and the
  numpy random draws) are fields of a `Libs` structure: the notebook is glue
  code over them, so its meaning is parametric in their behavior;
* the pretrained model is a list of feature layers (each a parameterized
  function on C×H×W tensors) plus an opaque classifier tail;
* the notebook-global variable `model` is an explicit `gmodel` argument,
  distinct from the `self` object of the method, mirroring Python's lexical
  scoping inside the class body;
* fallible operations (list indexing, opening an image file) return
  `Except PyErr`, mirroring Python exceptions (`IndexError` from indexing
  `model.features` / a tensor, an IO error from `PIL.Image.open`);
* `.squeeze()` is modeled as dropping the leading batch axis (the only
  singleton axis in the notebook's use), `.unsqueeze(0)` as wrapping in a
  singleton list;
* Python's `int()` on the float `upscaling_factor**j * imsize` is modeled as
  truncation toward zero of the exact rational value;
* `np.uint8` applied to a float is modeled as truncation toward zero
  followed by wrapping modulo 256.
-/

noncomputable section

/-- Python exceptions that the notebook's code can propagate. -/
inductive PyErr where
  | indexError : PyErr
  | ioError : PyErr
deriving DecidableEq

/-- A 2-d array (H×W) of reals. -/
abbrev Tensor2 := List (List ℝ)

/-- A 3-d array (C×H×W channel-major, or H×W×C for images). -/
abbrev Tensor3 := List Tensor2

/-- A 4-d array (batch of 3-d tensors). -/
abbrev Tensor4 := List Tensor3

/-- An H×W×C image as produced by `np.moveaxis(..., 0, 2)`. -/
abbrev Image := Tensor3

/-- Python list/tensor indexing: `l[i]`, raising `IndexError` out of range. -/
def getF {α : Type} (l : List α) (i : ℕ) : Except PyErr α :=
  match l.get? i with
  | some a => Except.ok a
  | none => Except.error PyErr.indexError

/-- Mean of a list of reals (`np.mean` / `torch.mean` over a flat vector). -/
def meanL (l : List ℝ) : ℝ := l.sum / l.length

/-- Population variance (`np.std(...)**2` with the default `ddof=0`). -/
def varL (l : List ℝ) : ℝ := meanL (l.map (fun v => (v - meanL l) ^ 2))

/-- Population standard deviation (`np.std` with the default `ddof=0`). -/
def stdL (l : List ℝ) : ℝ := Real.sqrt (varL l)

/-- Mean of all entries of a 2-d tensor (`tensor.mean()` on a spatial map). -/
def meanT2 (t : Tensor2) : ℝ := meanL t.flatten

/-- All-zero tensor of the same shape (`torch.zeros_like`, gradient reset). -/
def zerosLike3 (t : Tensor3) : Tensor3 :=
  t.map (fun m => m.map (fun r => r.map (fun _ => (0 : ℝ))))

/-- All-zero 4-d tensor of the same shape. -/
def zerosLike4 (t : Tensor4) : Tensor4 := t.map zerosLike3

/-- Entrywise negation of a 3-d tensor. -/
def negT3 (t : Tensor3) : Tensor3 := t.map (fun m => m.map (fun r => r.map Neg.neg))

/-- Entrywise negation of a 4-d tensor. -/
def negT4 (t : Tensor4) : Tensor4 := t.map negT3

/-- Entrywise sum of two 3-d tensors of the same shape (`+=` accumulation). -/
def addT3 (a b : Tensor3) : Tensor3 :=
  List.zipWith (List.zipWith (List.zipWith (· + ·))) a b

/-- Entrywise sum of two 4-d tensors of the same shape. -/
def addT4 (a b : Tensor4) : Tensor4 := List.zipWith addT3 a b

/-- `t.squeeze()` on a (1,C,H,W) tensor: drop the batch axis. -/
def squeezeT (t : Tensor4) : Tensor3 := t.headD []

/-- `t.unsqueeze(0)`: add a batch axis. -/
def unsqueezeT (t : Tensor3) : Tensor4 := [t]

/-- `arr.transpose(1, 2, 0)`: C×H×W to H×W×C. -/
def toHWC (t : Tensor3) : Image :=
  let H := (t.headD []).length
  let W := ((t.headD []).headD []).length
  (List.range H).map (fun i =>
    (List.range W).map (fun j => t.map (fun ch => (ch.getD i []).getD j 0)))

/-- `arr.transpose(2, 0, 1)`: H×W×C to C×H×W. -/
def toCHW (x : Image) : Tensor3 :=
  let C := ((x.headD []).headD []).length
  (List.range C).map (fun c => x.map (fun row => row.map (fun px => px.getD c 0)))

/-- Shape predicate: `t` is an a×b×c array of reals. -/
def Shape3 (t : Tensor3) (a b c : ℕ) : Prop :=
  t.length = a ∧ ∀ m ∈ t, m.length = b ∧ ∀ r ∈ m, r.length = c

/-- Shape predicate: `t` is an n×a×b×c array of reals. -/
def Shape4 (t : Tensor4) (n a b c : ℕ) : Prop :=
  t.length = n ∧ ∀ m ∈ t, Shape3 m a b c

/-- Same-shape relation on 3-d tensors (what `+=` on torch tensors needs). -/
def SameSh3 (a b : Tensor3) : Prop :=
  List.Forall₂ (List.Forall₂ (fun r s : List ℝ => r.length = s.length)) a b

/-- Same-shape relation on 4-d tensors. -/
def SameSh4 (a b : Tensor4) : Prop := List.Forall₂ SameSh3 a b

/-- One feature layer: a function of its parameters and the C×H×W input
(a convolution, ReLU, or pooling module of `model.features`). -/
abbrev FLayer := List ℝ → Tensor3 → Tensor3

/-- The pretrained classifier: the `features` sequential stack (layer
functions together with their current parameters) and the rest of the
network (`avgpool` + `classifier`), whose output the notebook discards. -/
structure Model where
  featureFns : List FLayer
  featureParams : List (List ℝ)
  tail : Tensor3 → Tensor3

/-- The Python object: `FeatureVisualizer.__init__` stores the model passed
in as `self.model`. -/
structure FeatureVisualizer where
  model : Model

/-- External library operations the notebook calls but does not define:
numpy's RNG, `skimage.transform.resize`, autograd's gradient, the Adam
optimizer, torchvision's `Resize`, and `PIL.Image.open`. -/
structure Libs where
  randUniform : ℕ → Tensor3
  skResize : Image → ℕ → ℕ → Image
  gradFn : (Tensor4 → ℝ) → Tensor4 → Tensor4
  adamInit : Tensor4 → ℝ → ℝ → List ℝ
  adamStep : List ℝ → Tensor4 → Tensor4 → Tensor4 × List ℝ
  torchResize : Image → ℕ → Image
  openImage : String → Option Image

/-- Run the `features` stack on a batched tensor starting at absolute layer
index `i`, collecting the output of layer `li` (the forward hook's effect). -/
def fwdAux : List FLayer → List (List ℝ) → ℕ → ℕ → Tensor4 → Tensor4 × List Tensor4
  | [], _, _, _, x => (x, [])
  | fn :: fns, ps, li, i, x =>
      let y := x.map (fn (ps.headD []))
      let r := fwdAux fns (ps.drop 1) li (i + 1) y
      (r.1, (if i = li then [y] else []) ++ r.2)

/-- `model(img)` restricted to the `features` stack, with a forward hook
registered on `features[li]`: final output and the list of tensors the hook
appended to `outputs`. -/
def forwardFeatures (fns : List FLayer) (ps : List (List ℝ)) (li : ℕ)
    (x : Tensor4) : Tensor4 × List Tensor4 :=
  fwdAux fns ps li 0 x

/-- Plain composition of a prefix of the `features` stack (no hook). -/
def forwardVal : List FLayer → List (List ℝ) → Tensor4 → Tensor4
  | [], _, x => x
  | fn :: fns, ps, x => forwardVal fns (ps.drop 1) (x.map (fn (ps.headD [])))

/-- The quantity the notebook maximizes: the mean activation of kernel `ki`
in (the output of) feature layer `li`, as a function of the batched input
image: `outputs[0][0, kernel_index].mean()` seen through the autograd graph. -/
def unitMeanAct (fns : List FLayer) (ps : List (List ℝ)) (li ki : ℕ)
    (x : Tensor4) : ℝ :=
  meanT2 (((forwardVal (fns.take (li + 1)) ps x).headD []).getD ki [])

/-- The per-channel means the notebook's final renormalization shifts to
(and `get_mean_layer_activations`' `transforms.Normalize` mean). -/
def vggMean : List ℝ := [0.485, 0.456, 0.406]

/-- The per-channel standard deviations of the final renormalization
(and `get_mean_layer_activations`' `transforms.Normalize` std). -/
def vggStd : List ℝ := [0.229, 0.224, 0.225]

/-- Python's `int()` on a real value: truncation toward zero. -/
def pyTruncR (v : ℝ) : ℤ := if 0 ≤ v then ⌊v⌋ else ⌈v⌉

/-- Python's `int()` on a rational value: truncation toward zero. -/
def pyTruncQ (q : ℚ) : ℤ := if 0 ≤ q then ⌊q⌋ else ⌈q⌉

/-- `int(upscaling_factor**j * imsize)`, the side of the square the image is
resized to at outer iteration `j` (clamped to `ℕ`, as a numpy shape must be
nonnegative). -/
def szFn (uf : ℚ) (imsize : ℕ) (j : ℕ) : ℕ := (pyTruncQ (uf ^ j * imsize)).toNat

/-- `np.uint8(v) / 255` for one raw uniform draw `v`: C-style truncation of
the float toward zero, wrap modulo 256, then division by 255. -/
def initVal (v : ℝ) : ℝ := ((pyTruncR v % 256 : ℤ) : ℝ) / 255

/-- The initial image:
`torch.from_numpy(np.uint8(np.random.uniform(-125, 125, (3, imsize, imsize))) / 255)`,
with the raw uniform draws supplied by the library. -/
def initTensor (L : Libs) (imsize : ℕ) : Tensor3 :=
  (L.randUniform imsize).map (fun m => m.map (fun r => r.map initVal))

/-- Observable steps of `create_feature_maximizer`: the `resize` call of each
outer iteration (with the requested side) and, per inner iteration,
`optimizer.zero_grad()`, the single `model(img)` forward pass,
`loss.backward()`, and `optimizer.step()`. -/
inductive Event where
  | resize (sz : ℕ) : Event
  | zeroGrad : Event
  | forward : Event
  | backward : Event
  | optStep : Event
deriving DecidableEq

/-- The mutable state threaded through `create_feature_maximizer`: the
optimized image `img` (with its batch axis), its gradient buffer `img.grad`,
the current optimizer's internal state, the number of forward hooks
currently installed on the global model, the model's parameters, the list of
printed loss values, and the event log. -/
structure RunS where
  img : Tensor4
  gradBuf : Tensor4
  adamSt : List ℝ
  hooks : ℕ
  params : List (List ℝ)
  losses : List ℝ
  events : List Event

/-- One iteration of the inner optimization loop of
`create_feature_maximizer`: zero the gradient, register a forward hook on
`model.features[layer_index]` (the notebook-global `model`!), run the model
forward, form `loss = -outputs[0][0, kernel_index].mean()`, print it,
backpropagate, take one optimizer step on `[img]`, remove the hook. -/
def innerStep (L : Libs) (gm : Model) (li ki : ℕ) (s : RunS) :
    Except PyErr RunS :=
  -- optimizer.zero_grad()
  let s0 : RunS := { s with gradBuf := zerosLike4 s.img,
                            events := s.events ++ [Event.zeroGrad] }
  -- outputs = []; hook = model.features[layer_index].register_forward_hook(hook_fn)
  match getF gm.featureFns li with
  | Except.error e => Except.error e
  | Except.ok _ =>
    let s1 : RunS := { s0 with hooks := s0.hooks + 1 }
    -- output = model(img): the features stack fires the hook, then the tail runs
    let fwd := forwardFeatures gm.featureFns s1.params li s1.img
    let output := fwd.1.map gm.tail
    let s2 : RunS := { s1 with events := s1.events ++ [Event.forward] }
    -- loss = -outputs[0][0, kernel_index].mean()
    match getF fwd.2 0 with
    | Except.error e => Except.error e
    | Except.ok t4 =>
      match getF t4 0 with
      | Except.error e => Except.error e
      | Except.ok chw =>
        match getF chw ki with
        | Except.error e => Except.error e
        | Except.ok spatial =>
          let lossVal : ℝ := -(meanT2 spatial)
          -- print("Negative Mean activation ...", loss.item())
          let s3 : RunS := { s2 with losses := s2.losses ++ [lossVal] }
          -- loss.backward(): accumulate the gradient of the recorded graph
          let s4 : RunS := { s3 with
            gradBuf := addT4 s3.gradBuf
              (L.gradFn (fun x => -(unitMeanAct gm.featureFns s3.params li ki x))
                s3.img),
            events := s3.events ++ [Event.backward] }
          -- optimizer.step(): update the single parameter img
          let upd := L.adamStep s4.adamSt s4.img s4.gradBuf
          let s5 : RunS := { s4 with img := upd.1, adamSt := upd.2,
                                     events := s4.events ++ [Event.optStep] }
          -- hook.remove()
          Except.ok { s5 with hooks := s5.hooks - 1 }

/-- `for i in range(n): body` for a state-transforming, possibly raising
body: stop at the first raised exception. -/
def loopE (f : RunS → Except PyErr RunS) : ℕ → RunS → Except PyErr RunS
  | 0, s => Except.ok s
  | n + 1, s =>
      match f s with
      | Except.error e => Except.error e
      | Except.ok s1 => loopE f n s1

/-- `for j in js: body j` for an indexed, possibly raising body. -/
def forE (f : ℕ → RunS → Except PyErr RunS) :
    List ℕ → RunS → Except PyErr RunS
  | [], s => Except.ok s
  | j :: js, s =>
      match f j s with
      | Except.error e => Except.error e
      | Except.ok s1 => forE f js s1

/-- `for i in range(n_steps): ...` — the inner optimization loop. -/
def innerLoop (L : Libs) (gm : Model) (li ki : ℕ) (n : ℕ) :
    RunS → Except PyErr RunS :=
  loopE (innerStep L gm li ki) n

/-- The head of outer iteration `j`: compute `sz`, rescale the image
(`resize(img.detach().numpy().squeeze().transpose(1,2,0), (sz, sz))
.transpose(2,0,1)`), rebuild the leaf tensor with a fresh gradient, and
instantiate a fresh Adam optimizer over `[img]` with `lr=1e-1`,
`weight_decay=1e-6`. -/
def outerPrep (L : Libs) (imsize : ℕ) (uf : ℚ) (j : ℕ) (s : RunS) : RunS :=
  let sz := szFn uf imsize j
  let hwc := L.skResize (toHWC (squeezeT s.img)) sz sz
  let img := unsqueezeT (toCHW hwc)
  { img := img
    gradBuf := zerosLike4 img
    adamSt := L.adamInit img (1 / 10) (1 / 1000000)
    hooks := s.hooks
    params := s.params
    losses := s.losses
    events := s.events ++ [Event.resize sz] }

/-- One full outer iteration: the resize prep followed by `n_steps` inner steps. -/
def outerIter (L : Libs) (gm : Model) (li ki nst imsize : ℕ) (uf : ℚ) (j : ℕ)
    (s : RunS) : Except PyErr RunS :=
  innerLoop L gm li ki nst (outerPrep L imsize uf j s)

/-- `for j in range(upscaling_steps): ...` over the list of outer indices. -/
def outerLoop (L : Libs) (gm : Model) (li ki nst imsize : ℕ) (uf : ℚ)
    (js : List ℕ) : RunS → Except PyErr RunS :=
  forE (outerIter L gm li ki nst imsize uf) js

/-- The whole optimization of `create_feature_maximizer` up to (but not
including) the final numpy conversion and renormalization, returning the
final run state.  `gmodel` is the notebook-global variable `model`: the
method body closes over it, it does NOT read `self.model`.  `gaussian_blur`
is accepted (with the same position as in the Python signature) and, like in
the source, never used. -/
def cfmRun (L : Libs) (gmodel : Model) (self : FeatureVisualizer)
    (layer_index kernel_index n_steps : ℕ) (gaussian_blur : ℝ)
    (imsize upscaling_steps : ℕ) (upscaling_factor : ℚ) : Except PyErr RunS :=
  let img0 : Tensor4 := unsqueezeT (initTensor L imsize)
  let s0 : RunS :=
    { img := img0, gradBuf := zerosLike4 img0, adamSt := [], hooks := 0,
      params := gmodel.featureParams, losses := [], events := [] }
  outerLoop L gmodel layer_index kernel_index n_steps imsize upscaling_factor
    (List.range upscaling_steps) s0

/-- Per-channel map over an H×W×C image: broadcasting of a numpy operation
with a length-3 vector over the last axis. -/
def mapChanP (f : ℕ → ℝ → ℝ) (x : Image) : Image :=
  x.map (fun row => row.map (fun px => px.enum.map (fun iv => f iv.1 iv.2)))

/-- The flat list of the values of channel `c` of an H×W×C image (the data
a numpy reduction with `axis=(0,1)` ranges over). -/
def chanVals (x : Image) (c : ℕ) : List ℝ :=
  x.flatMap (fun row => row.map (fun px => px.getD c 0))

/-- The final renormalization of the optimized image:
`img_new = img - img.mean(axis=(0,1))`, `img_new /= img_new.std(axis=(0,1))`,
`img_new *= np.array([0.229, 0.224, 0.225])`,
`img_new += np.array([0.485, 0.456, 0.406])`. -/
def normalizeFinal (x : Image) : Image :=
  let m := fun c => meanL (chanVals x c)
  let x1 := mapChanP (fun c v => v - m c) x
  let sd := fun c => stdL (chanVals x1 c)
  let x2 := mapChanP (fun c v => v / sd c) x1
  let x3 := mapChanP (fun c v => v * vggStd.getD c 0) x2
  mapChanP (fun c v => v + vggMean.getD c 0) x3

/-- `FeatureVisualizer.create_feature_maximizer`: run the nested optimization
loop, then `img = np.moveaxis(img.detach().numpy().squeeze(), 0, 2)` and the
final renormalization. -/
def create_feature_maximizer (L : Libs) (gmodel : Model)
    (self : FeatureVisualizer) (layer_index kernel_index n_steps : ℕ)
    (gaussian_blur : ℝ) (imsize upscaling_steps : ℕ)
    (upscaling_factor : ℚ) : Except PyErr Image :=
  (cfmRun L gmodel self layer_index kernel_index n_steps gaussian_blur imsize
      upscaling_steps upscaling_factor).map
    (fun s => normalizeFinal (toHWC (squeezeT s.img)))

/-- `transforms.ToTensor()`: H×W×C image with values in 0..255 to a C×H×W
tensor scaled into the unit interval. -/
def toTensorT (x : Image) : Tensor3 :=
  (toCHW x).map (fun m => m.map (fun r => r.map (fun v => v / 255)))

/-- `transforms.Normalize(mean, std)` on a C×H×W tensor. -/
def normalizeT (mean std : List ℝ) (t : Tensor3) : Tensor3 :=
  t.enum.map (fun cm =>
    cm.2.map (fun r =>
      r.map (fun v => (v - mean.getD cm.1 0) / std.getD cm.1 0)))

/-- `FeatureVisualizer.get_mean_layer_activations`: load the image at
`image_path` (propagating the library's error if it cannot be opened),
apply `Resize(imsize)`, `ToTensor()` and `Normalize(...)`, run `self.model`
with a forward hook on `self.model.features[layer_index]`, and return
`np.mean(outputs[0].detach().cpu().numpy().squeeze(), axis=(1,2))`. -/
def get_mean_layer_activations (L : Libs) (self : FeatureVisualizer)
    (image_path : String) (layer_index : ℕ) (imsize : ℕ) :
    Except PyErr (List ℝ) :=
  match L.openImage image_path with
  | none => Except.error PyErr.ioError
  | some raw =>
    let t := normalizeT vggMean vggStd (toTensorT (L.torchResize raw imsize))
    let img : Tensor4 := unsqueezeT t
    -- hook = self.model.features[layer_index].register_forward_hook(hook_fn)
    match getF self.model.featureFns layer_index with
    | Except.error e => Except.error e
    | Except.ok _ =>
      let fwd := forwardFeatures self.model.featureFns self.model.featureParams
        layer_index img
      let output := fwd.1.map self.model.tail
      match getF fwd.2 0 with
      | Except.error e => Except.error e
      | Except.ok t4 =>
        Except.ok ((squeezeT t4).map meanT2)

/-- Composition of a stack of layers on a single (unbatched) C×H×W tensor. -/
def comp3 : List FLayer → List (List ℝ) → Tensor3 → Tensor3
  | [], _, t => t
  | fn :: fns, ps, t => comp3 fns (ps.drop 1) (fn (ps.headD []) t)

/-- The event block of one inner optimization step. -/
def stepBlock : List Event :=
  [Event.zeroGrad, Event.forward, Event.backward, Event.optStep]

/-- The event trace of `n` inner optimization steps. -/
def innerTrace (n : ℕ) : List Event := (List.replicate n stepBlock).flatten

/-- The full event trace of `create_feature_maximizer`:
`upscaling_steps` outer iterations, each one resize followed by `n_steps`
inner blocks. -/
def cfmTrace (uf : ℚ) (imsize n_steps upscaling_steps : ℕ) : List Event :=
  (List.range upscaling_steps).flatMap
    (fun j => Event.resize (szFn uf imsize j) :: innerTrace n_steps)

/-- The mean activation of kernel `ki` of feature layer `li` of a model,
evaluated on an H×W×C image (the quantity the spec says the returned image
maximizes). -/
def meanActOnImage (gm : Model) (li ki : ℕ) (x : Image) : ℝ :=
  unitMeanAct gm.featureFns gm.featureParams li ki (unsqueezeT (toCHW x))

/-- Modelled from the spec: one inner step of "an iterative gradient-ascent
image optimizer" — identical to `innerStep` except that the optimizer is
handed the negation of the gradient of the mean activation itself (gradient
ascent on the mean activation), instead of the gradient of the loss
`-mean`. -/
def ascentInnerStep (L : Libs) (gm : Model) (li ki : ℕ) (s : RunS) :
    Except PyErr RunS :=
  let s0 : RunS := { s with gradBuf := zerosLike4 s.img,
                            events := s.events ++ [Event.zeroGrad] }
  match getF gm.featureFns li with
  | Except.error e => Except.error e
  | Except.ok _ =>
    let s1 : RunS := { s0 with hooks := s0.hooks + 1 }
    let fwd := forwardFeatures gm.featureFns s1.params li s1.img
    let output := fwd.1.map gm.tail
    let s2 : RunS := { s1 with events := s1.events ++ [Event.forward] }
    match getF fwd.2 0 with
    | Except.error e => Except.error e
    | Except.ok t4 =>
      match getF t4 0 with
      | Except.error e => Except.error e
      | Except.ok chw =>
        match getF chw ki with
        | Except.error e => Except.error e
        | Except.ok spatial =>
          let lossVal : ℝ := -(meanT2 spatial)
          let s3 : RunS := { s2 with losses := s2.losses ++ [lossVal] }
          -- ascend along the gradient of the mean activation
          let s4 : RunS := { s3 with
            gradBuf := addT4 s3.gradBuf
              (negT4 (L.gradFn (unitMeanAct gm.featureFns s3.params li ki)
                s3.img)),
            events := s3.events ++ [Event.backward] }
          let upd := L.adamStep s4.adamSt s4.img s4.gradBuf
          let s5 : RunS := { s4 with img := upd.1, adamSt := upd.2,
                                     events := s4.events ++ [Event.optStep] }
          Except.ok { s5 with hooks := s5.hooks - 1 }

/-- Modelled from the spec: the whole gradient-ascent optimizer with
progressive upscaling, built from `ascentInnerStep`. -/
def ascentRun (L : Libs) (gmodel : Model) (self : FeatureVisualizer)
    (layer_index kernel_index n_steps : ℕ) (gaussian_blur : ℝ)
    (imsize upscaling_steps : ℕ) (upscaling_factor : ℚ) : Except PyErr RunS :=
  let img0 : Tensor4 := unsqueezeT (initTensor L imsize)
  let s0 : RunS :=
    { img := img0, gradBuf := zerosLike4 img0, adamSt := [], hooks := 0,
      params := gmodel.featureParams, losses := [], events := [] }
  forE (fun j s =>
      loopE (ascentInnerStep L gmodel layer_index kernel_index) n_steps
        (outerPrep L imsize upscaling_factor j s))
    (List.range upscaling_steps) s0

/-- Modelled from the spec: `create_feature_maximizer` as a gradient-ascent
synthesizer — the ascent run followed by the final renormalization. -/
def ascent_feature_maximizer (L : Libs) (gmodel : Model)
    (self : FeatureVisualizer) (layer_index kernel_index n_steps : ℕ)
    (gaussian_blur : ℝ) (imsize upscaling_steps : ℕ)
    (upscaling_factor : ℚ) : Except PyErr Image :=
  (ascentRun L gmodel self layer_index kernel_index n_steps gaussian_blur
      imsize upscaling_steps upscaling_factor).map
    (fun s => normalizeFinal (toHWC (squeezeT s.img)))

/-- A single parameterless identity feature layer (for concrete instances). -/
def idLayer : FLayer := fun _ t => t

/-- A concrete model with one identity feature layer. -/
def idModel : Model := { featureFns := [idLayer], featureParams := [[]],
                         tail := fun t => t }

/-- A concrete model whose `features` stack is empty. -/
def emptyModel : Model := { featureFns := [], featureParams := [],
                            tail := fun t => t }

/-- A concrete 1×1 RGB image for exercising `get_mean_layer_activations`. -/
def catImg : Image := [[[255, 0, 0]]]

/-- A concrete, well-behaved instantiation of the external libraries:
zero gradients, an optimizer step that leaves its parameter unchanged, a
resize producing a black image of the requested shape, and an image store
holding exactly `cat.jpg`. -/
def testLibs : Libs :=
  { randUniform := fun _ => []
    skResize := fun _ h w => List.replicate h (List.replicate w [0, 0, 0])
    gradFn := fun _ x => zerosLike4 x
    adamInit := fun _ _ _ => []
    adamStep := fun st p _ => (p, st)
    torchResize := fun im _ => im
    openImage := fun p => if p = "cat.jpg" then some catImg else none }

/-- Concrete raw uniform draws: every channel is `[[0, 0], [102, 102]]`. -/
def cexDraws : Tensor3 := List.replicate 3 [[0, 0], [102, 102]]

/-- Libraries for the counterexample run: as `testLibs`, but the random
draws are `cexDraws` and resizing returns its input unchanged (what
`skimage.transform.resize` does on a same-size resize). -/
def cexLibs : Libs :=
  { testLibs with randUniform := fun _ => cexDraws
                  skResize := fun x _ _ => x }

/-- `FeatureVisualizer(idModel)`. -/
def fvId : FeatureVisualizer := { model := idModel }

/-- `FeatureVisualizer(emptyModel)`. -/
def fvEmpty : FeatureVisualizer := { model := emptyModel }

/-- The image the counterexample run optimizes (before renormalization):
channel values 0 and 2/5. -/
def cexPre : Image := [[[0, 0, 0], [0, 0, 0]],
                       [[2/5, 2/5, 2/5], [2/5, 2/5, 2/5]]]

/-- A rival 2×2 all-ones image: its mean activation under the identity layer
is 1, larger than that of the image the counterexample run returns. -/
def cexCandidate : Image := List.replicate 2 (List.replicate 2 [1, 1, 1])

/-- The activation tensor of feature layer `li` of a model on a C×H×W
input: the composition of the first `li + 1` feature layers. -/
def layerActs (m : Model) (li : ℕ) (t : Tensor3) : Tensor3 :=
  comp3 (m.featureFns.take (li + 1)) m.featureParams t

/-- The tensor `get_mean_layer_activations` feeds to the model: the loaded
image resized, converted, and normalized. -/
def inputTensorOf (L : Libs) (raw : Image) (imsize : ℕ) : Tensor3 :=
  normalizeT vggMean vggStd (toTensorT (L.torchResize raw imsize))

/-- A concrete run state (1×1×1×1 image) for exercising one inner step. -/
def witS : RunS :=
  { img := [[[[0]]]], gradBuf := [[[[0]]]], adamSt := [], hooks := 0,
    params := [[]], losses := [], events := [] }

/-- The state the counterexample run ends in. -/
def cexS : RunS :=
  { img := [toCHW cexPre], gradBuf := zerosLike4 [toCHW cexPre],
    adamSt := [], hooks := 0, params := [[]], losses := [],
    events := [Event.resize 2] }

/-- The state the C3/C4 witness run (two outer iterations, one inner step
each, with `testLibs` and the identity model) ends in. -/
def testS : RunS :=
  { img := [toCHW [[[0, 0, 0]]]]
    gradBuf := addT4 (zerosLike4 [toCHW [[[0, 0, 0]]]])
      (zerosLike4 [toCHW [[[0, 0, 0]]]])
    adamSt := []
    hooks := 0
    params := [[]]
    losses := [-(meanT2 [[(0 : ℝ)]]), -(meanT2 [[(0 : ℝ)]])]
    events := [Event.resize 1, Event.zeroGrad, Event.forward, Event.backward,
      Event.optStep, Event.resize 1, Event.zeroGrad, Event.forward,
      Event.backward, Event.optStep] }

/-- The state one successful inner step produces (characterization of
`innerStep` on its non-raising path): gradient buffer zeroed then loaded
with the gradient of `-mean activation`, one Adam update of `img`, the loss
value printed, hook count unchanged, model parameters unchanged. -/
def stepResult (L : Libs) (gm : Model) (li ki : ℕ) (s : RunS) : RunS :=
  let grad := addT4 (zerosLike4 s.img)
    (L.gradFn (fun x => -(unitMeanAct gm.featureFns s.params li ki x)) s.img)
  let upd := L.adamStep s.adamSt s.img grad
  { img := upd.1, gradBuf := grad, adamSt := upd.2, hooks := s.hooks,
    params := s.params,
    losses := s.losses ++ [-(unitMeanAct gm.featureFns s.params li ki s.img)],
    events := s.events ++ stepBlock }

/-! ### List statistics -/

lemma sum_map_affine (l : List ℝ) (a b : ℝ) :
    (l.map (fun v => v * a + b)).sum = l.sum * a + l.length * b := by
  induction l with
  | nil => simp
  | cons x t ih => simp only [List.map_cons, List.sum_cons, ih,
      List.length_cons, Nat.cast_succ]; ring

lemma length_cast_ne_zero {l : List ℝ} (hl : l ≠ []) : (l.length : ℝ) ≠ 0 := by
  have h : l.length ≠ 0 := by
    simpa [List.length_eq_zero] using hl
  exact_mod_cast h

lemma meanL_map_affine (l : List ℝ) (hl : l ≠ []) (a b : ℝ) :
    meanL (l.map (fun v => v * a + b)) = meanL l * a + b := by
  unfold meanL
  rw [List.length_map, sum_map_affine]
  have hn := length_cast_ne_zero hl
  field_simp
  ring

lemma meanL_center (l : List ℝ) (hl : l ≠ []) :
    meanL (l.map (fun v => v - meanL l)) = 0 := by
  have hfun : (fun v : ℝ => v - meanL l) = (fun v => v * 1 + (-(meanL l))) := by
    funext v; ring
  rw [hfun, meanL_map_affine l hl 1 (-(meanL l))]
  ring

lemma varL_map_affine (l : List ℝ) (hl : l ≠ []) (a b : ℝ) :
    varL (l.map (fun v => v * a + b)) = a ^ 2 * varL l := by
  unfold varL
  rw [meanL_map_affine l hl a b, List.map_map]
  have hfun : ((fun v : ℝ => (v - (meanL l * a + b)) ^ 2) ∘
      (fun v : ℝ => v * a + b)) =
      (fun v : ℝ => ((v - meanL l) ^ 2) * a ^ 2 + 0) := by
    funext v; simp [Function.comp]; ring
  rw [hfun]
  have hl2 : l.map (fun v : ℝ => (v - meanL l) ^ 2) ≠ [] := by
    simpa using hl
  have := meanL_map_affine (l.map (fun v : ℝ => (v - meanL l) ^ 2)) hl2
    (a ^ 2) 0
  rw [List.map_map] at this
  have hfun2 : ((fun v : ℝ => v * a ^ 2 + 0) ∘
      (fun v : ℝ => (v - meanL l) ^ 2)) =
      (fun v : ℝ => ((v - meanL l) ^ 2) * a ^ 2 + 0) := by
    funext v; simp [Function.comp]
  rw [hfun2] at this
  rw [this]
  ring

lemma meanL_nonneg (l : List ℝ) (h : ∀ x ∈ l, 0 ≤ x) : 0 ≤ meanL l := by
  unfold meanL
  exact div_nonneg (List.sum_nonneg h) (Nat.cast_nonneg _)

lemma varL_nonneg (l : List ℝ) : 0 ≤ varL l := by
  unfold varL
  refine meanL_nonneg _ ?_
  intro x hx
  obtain ⟨v, _, rfl⟩ := List.mem_map.mp hx
  exact sq_nonneg _

lemma stdL_nonneg (l : List ℝ) : 0 ≤ stdL l := Real.sqrt_nonneg _

lemma stdL_sq (l : List ℝ) : stdL l ^ 2 = varL l := Real.sq_sqrt (varL_nonneg l)

lemma stdL_map_affine (l : List ℝ) (hl : l ≠ []) (a b : ℝ) :
    stdL (l.map (fun v => v * a + b)) = |a| * stdL l := by
  unfold stdL
  rw [varL_map_affine l hl a b, Real.sqrt_mul (sq_nonneg a),
    Real.sqrt_sq_eq_abs]

/-- Normalizing a centered list by its (nonzero) standard deviation, scaling
by `σc > 0` and shifting by `μc` produces mean `μc` and std `σc`. -/
lemma norm_stats (u : List ℝ) (hu : u ≠ []) (hu0 : meanL u = 0)
    (σc μc : ℝ) (hσ : 0 < σc) (hsne : stdL u ≠ 0) :
    meanL (u.map (fun v => v / stdL u * σc + μc)) = μc ∧
      stdL (u.map (fun v => v / stdL u * σc + μc)) = σc := by
  have hs : 0 < stdL u := lt_of_le_of_ne (stdL_nonneg u) (Ne.symm hsne)
  have hfun : (fun v : ℝ => v / stdL u * σc + μc) =
      (fun v : ℝ => v * (σc / stdL u) + μc) := by
    funext v; ring
  rw [hfun]
  constructor
  · rw [meanL_map_affine u hu _ _, hu0]; ring
  · rw [stdL_map_affine u hu _ _, abs_of_pos (div_pos hσ hs)]
    field_simp

/-! ### Channel extraction and per-channel maps -/

lemma enumFrom_map_getD (f : ℕ → ℝ → ℝ) :
    ∀ (l : List ℝ) (i c : ℕ), c < l.length →
      ((l.enumFrom i).map (fun iv => f iv.1 iv.2)).getD c 0 =
        f (i + c) (l.getD c 0) := by
  intro l
  induction l with
  | nil => intro i c hc; simp at hc
  | cons x t ih =>
    intro i c hc
    cases c with
    | zero => simp [List.enumFrom]
    | succ c =>
      have hc' : c < t.length := by simpa using hc
      have h2 := ih (i + 1) c hc'
      simp only [List.enumFrom, List.map_cons, List.getD_cons_succ]
      rw [h2]
      have harith : i + 1 + c = i + (c + 1) := by omega
      rw [harith]

lemma enum_map_getD (f : ℕ → ℝ → ℝ) (l : List ℝ) (c : ℕ) (hc : c < l.length) :
    (l.enum.map (fun iv => f iv.1 iv.2)).getD c 0 = f c (l.getD c 0) := by
  have := enumFrom_map_getD f l 0 c hc
  simpa [List.enum] using this

lemma row_map_getD (f : ℕ → ℝ → ℝ) (row : List (List ℝ)) (c : ℕ)
    (h : ∀ px ∈ row, c < px.length) :
    List.map (fun px => px.getD c 0)
      (List.map (fun px => List.map (fun iv => f iv.1 iv.2) px.enum) row) =
    List.map (f c) (List.map (fun px => px.getD c 0) row) := by
  rw [List.map_map, List.map_map]
  refine List.map_congr_left ?_
  intro px hpx
  simp only [Function.comp]
  exact enum_map_getD f px c (h px hpx)

lemma chanVals_mapChanP (f : ℕ → ℝ → ℝ) (x : Image) (c : ℕ)
    (hpx : ∀ row ∈ x, ∀ px ∈ row, c < px.length) :
    chanVals (mapChanP f x) c = (chanVals x c).map (f c) := by
  unfold chanVals mapChanP
  induction x with
  | nil => simp
  | cons row rows ih =>
    have hrow : ∀ px ∈ row, c < px.length := hpx row (by simp)
    have hrest : ∀ r ∈ rows, ∀ px ∈ r, c < px.length := by
      intro r hr; exact hpx r (by simp [hr])
    simp only [List.map_cons, List.flatMap_cons, List.map_append]
    rw [ih hrest, row_map_getD f row c hrow]

lemma mapChanP_pxlen (f : ℕ → ℝ → ℝ) (x : Image) (n : ℕ)
    (hpx : ∀ row ∈ x, ∀ px ∈ row, px.length = n) :
    ∀ row ∈ mapChanP f x, ∀ px ∈ row, px.length = n := by
  intro row hrow px hpxm
  obtain ⟨r0, hr0, rfl⟩ := List.mem_map.mp hrow
  obtain ⟨p0, hp0, rfl⟩ := List.mem_map.mp hpxm
  simpa using hpx r0 hr0 p0 hp0

lemma chanVals_ne_nil (x : Image) (c : ℕ) (row : List (List ℝ))
    (hrow : row ∈ x) (px : List ℝ) (hpx : px ∈ row) : chanVals x c ≠ [] := by
  unfold chanVals
  intro h
  have : px.getD c 0 ∈ (List.nil : List ℝ) := by
    rw [← h]
    exact List.mem_flatMap.mpr ⟨row, hrow, List.mem_map.mpr ⟨px, hpx, rfl⟩⟩
  simp at this

/-- The values of channel `c` of the renormalized image: the original
channel, centered, divided by its std, scaled and shifted by the constants. -/
lemma normalizeFinal_chanVals (x : Image) (c : ℕ) (hc : c < 3)
    (hpx : ∀ row ∈ x, ∀ px ∈ row, px.length = 3) :
    chanVals (normalizeFinal x) c =
      ((chanVals x c).map (fun v => v - meanL (chanVals x c))).map
        (fun v =>
          v / stdL ((chanVals x c).map (fun w => w - meanL (chanVals x c))) *
            vggStd.getD c 0 + vggMean.getD c 0) := by
  have key : ∀ (y : Image), (∀ row ∈ y, ∀ px ∈ row, px.length = 3) →
      ∀ row ∈ y, ∀ px ∈ row, c < px.length := by
    intro y hy row hrow px hp
    rw [hy row hrow px hp]; exact hc
  unfold normalizeFinal
  dsimp only
  rw [chanVals_mapChanP, chanVals_mapChanP, chanVals_mapChanP, chanVals_mapChanP]
  · rw [List.map_map, List.map_map]
    refine List.map_congr_left ?_
    intro v _
    simp only [Function.comp]
  · exact key _ hpx
  · exact key _ (mapChanP_pxlen _ _ 3 hpx)
  · exact key _ (mapChanP_pxlen _ _ 3 (mapChanP_pxlen _ _ 3 hpx))
  · exact key _ (mapChanP_pxlen _ _ 3 (mapChanP_pxlen _ _ 3
      (mapChanP_pxlen _ _ 3 hpx)))

/-- Per-channel mean and std of the renormalized image equal the hard-coded
constants, provided the channel is spatially nonempty and its std after
centering is nonzero. -/
lemma normalizeFinal_stats (x : Image) (c : ℕ) (hc : c < 3)
    (hpx : ∀ row ∈ x, ∀ px ∈ row, px.length = 3)
    (hne : chanVals x c ≠ [])
    (hstd : stdL ((chanVals x c).map
      (fun w => w - meanL (chanVals x c))) ≠ 0) :
    meanL (chanVals (normalizeFinal x) c) = vggMean.getD c 0 ∧
      stdL (chanVals (normalizeFinal x) c) = vggStd.getD c 0 := by
  have hσ : 0 < vggStd.getD c 0 := by
    unfold vggStd
    interval_cases c <;> norm_num
  rw [normalizeFinal_chanVals x c hc hpx]
  have hu : (chanVals x c).map (fun v => v - meanL (chanVals x c)) ≠ [] := by
    simpa using hne
  have hu0 := meanL_center (chanVals x c) hne
  exact norm_stats _ hu hu0 _ (vggMean.getD c 0) hσ hstd

/-! ### Indexing and the hooked forward pass -/

lemma getF_err {α : Type} (l : List α) (i : ℕ) (h : l.length ≤ i) :
    getF l i = Except.error PyErr.indexError := by
  unfold getF
  rw [List.get?_eq_none.mpr h]

lemma getF_ok {α : Type} (l : List α) (i : ℕ) (h : i < l.length) :
    getF l i = Except.ok (l.get ⟨i, h⟩) := by
  unfold getF
  rw [List.get?_eq_get h]

lemma forwardVal_eq_map (fns : List FLayer) :
    ∀ (ps : List (List ℝ)) (x : Tensor4),
      forwardVal fns ps x = x.map (comp3 fns ps) := by
  induction fns with
  | nil => intro ps x; simp [forwardVal, comp3]
  | cons fn fns ih =>
    intro ps x
    rw [forwardVal, ih, List.map_map]
    rfl

lemma fwdAux_snd_high : ∀ (fns : List FLayer) (ps : List (List ℝ))
    (li i : ℕ) (x : Tensor4), li < i → (fwdAux fns ps li i x).2 = [] := by
  intro fns
  induction fns with
  | nil => intro ps li i x _; rfl
  | cons fn fns ih =>
    intro ps li i x h
    rw [fwdAux]
    have hne : ¬ (i = li) := by omega
    simp only [hne, if_false, List.nil_append]
    exact ih _ li (i + 1) _ (by omega)

lemma fwdAux_snd_hit : ∀ (fns : List FLayer) (ps : List (List ℝ))
    (li i : ℕ) (x : Tensor4), i ≤ li → li - i < fns.length →
      (fwdAux fns ps li i x).2 =
        [forwardVal (fns.take (li - i + 1)) ps x] := by
  intro fns
  induction fns with
  | nil => intro ps li i x _ h; simp at h
  | cons fn fns ih =>
    intro ps li i x hle hlt
    rw [fwdAux]
    by_cases hi : i = li
    · subst hi
      simp only [Nat.sub_self, if_pos rfl, List.singleton_append,
        Nat.zero_add, List.take, forwardVal]
      have h0 := fwdAux_snd_high fns (ps.drop 1) i (i + 1) (x.map (fn (ps.headD []))) (by omega)
      rw [h0]
      simp [forwardVal]
    · have hlt' : i < li := lt_of_le_of_ne hle hi
      simp only [hi, if_false, List.nil_append]
      have h1 := ih (ps.drop 1) li (i + 1) (x.map (fn (ps.headD [])))
        (by omega) (by simp at hlt; omega)
      rw [h1]
      have harith : li - i + 1 = (li - (i + 1) + 1) + 1 := by omega
      rw [harith]
      simp [List.take, forwardVal]

/-- The forward hook on `features[li]` fires exactly once per forward pass,
capturing the output of the first `li + 1` layers. -/
lemma forwardFeatures_snd (fns : List FLayer) (ps : List (List ℝ)) (li : ℕ)
    (x : Tensor4) (h : li < fns.length) :
    (forwardFeatures fns ps li x).2 = [forwardVal (fns.take (li + 1)) ps x] := by
  unfold forwardFeatures
  have := fwdAux_snd_hit fns ps li 0 x (Nat.zero_le li) (by simpa using h)
  simpa using this

lemma getF_zero_cons {α : Type} (a : α) (l : List α) :
    getF (a :: l) 0 = Except.ok a := rfl

lemma headD_map (g : Tensor3 → Tensor3) (x : Tensor4) (hx : x ≠ []) :
    (x.map g).headD [] = g (x.headD []) := by
  cases x with
  | nil => exact absurd rfl hx
  | cons b bs => rfl

lemma getF_map_zero (g : Tensor3 → Tensor3) (x : Tensor4) (hx : x ≠ []) :
    getF (x.map g) 0 = Except.ok (g (x.headD [])) := by
  cases x with
  | nil => exact absurd rfl hx
  | cons b bs => rfl

/-! ### Zeroed gradient buffers absorb into accumulation -/

lemma addzero1 : ∀ (x v : List ℝ), v.length = x.length →
    List.zipWith (· + ·) (x.map (fun _ => (0 : ℝ))) v = v := by
  intro x
  induction x with
  | nil =>
    intro v hv
    have hv0 : v = [] := List.length_eq_zero.mp (by simpa using hv)
    subst hv0
    rfl
  | cons a as ih =>
    intro v hv
    cases v with
    | nil => simp at hv
    | cons b bs =>
      simp only [List.map_cons, List.zipWith_cons_cons, zero_add,
        List.cons.injEq, true_and]
      exact ih bs (by simpa using hv)

lemma addzero2 : ∀ (x v : Tensor2),
    List.Forall₂ (fun r s : List ℝ => r.length = s.length) v x →
    List.zipWith (List.zipWith (· + ·))
      (x.map (fun r => r.map (fun _ => (0 : ℝ)))) v = v := by
  intro x v h
  induction h with
  | nil => rfl
  | cons h1 h2 ih =>
    simp only [List.map_cons, List.zipWith_cons_cons, List.cons.injEq]
    exact ⟨addzero1 _ _ h1, ih⟩

lemma addzero3 (x v : Tensor3) (h : SameSh3 v x) :
    addT3 (zerosLike3 x) v = v := by
  unfold addT3 zerosLike3
  induction h with
  | nil => rfl
  | cons h1 h2 ih =>
    simp only [List.map_cons, List.zipWith_cons_cons, List.cons.injEq]
    exact ⟨addzero2 _ _ h1, ih⟩

lemma addzero4 (x v : Tensor4) (h : SameSh4 v x) :
    addT4 (zerosLike4 x) v = v := by
  unfold addT4 zerosLike4
  induction h with
  | nil => rfl
  | cons h1 h2 ih =>
    simp only [List.map_cons, List.zipWith_cons_cons, List.cons.injEq]
    exact ⟨addzero3 _ _ h1, ih⟩

/-! ### The inner step: characterization and invariants -/

/-- On the non-raising path, one inner step is exactly `stepResult`. -/
lemma innerStep_ok (L : Libs) (gm : Model) (li ki : ℕ) (s : RunS)
    (hli : li < gm.featureFns.length) (himg : s.img ≠ [])
    (hki : ki < ((forwardVal (gm.featureFns.take (li + 1)) s.params
      s.img).headD []).length) :
    innerStep L gm li ki s = Except.ok (stepResult L gm li ki s) := by
  unfold innerStep stepResult
  dsimp only
  rw [getF_ok gm.featureFns li hli]
  dsimp only
  rw [forwardFeatures_snd gm.featureFns s.params li s.img hli]
  rw [getF_zero_cons]
  dsimp only
  rw [forwardVal_eq_map] at hki ⊢
  rw [getF_map_zero _ _ himg]
  dsimp only
  rw [headD_map _ _ himg] at hki
  rw [getF_ok _ _ hki]
  dsimp only
  unfold unitMeanAct
  rw [forwardVal_eq_map, headD_map _ _ himg]
  rw [List.getD_eq_getElem _ _ hki]
  simp [stepBlock, List.append_assoc, List.get_eq_getElem]

/-- An inner step with an out-of-range layer index raises `IndexError`. -/
lemma innerStep_err_li (L : Libs) (gm : Model) (li ki : ℕ) (s : RunS)
    (h : gm.featureFns.length ≤ li) :
    innerStep L gm li ki s = Except.error PyErr.indexError := by
  unfold innerStep
  rw [getF_err gm.featureFns li h]

/-- Whatever path it takes, a successful inner step keeps the model's
parameters, keeps the hook count (one hook added, one removed), logs exactly
one zero-grad/forward/backward/step block, and only changes the image by
one optimizer update. -/
lemma innerStep_inv (L : Libs) (gm : Model) (li ki : ℕ) (s s1 : RunS)
    (h : innerStep L gm li ki s = Except.ok s1) :
    s1.params = s.params ∧ s1.hooks = s.hooks ∧
      s1.events = s.events ++ stepBlock ∧
      ∃ g, s1.img = (L.adamStep s.adamSt s.img g).1 := by
  unfold innerStep at h
  dsimp only at h
  cases h1 : getF gm.featureFns li with
  | error e => rw [h1] at h; cases h
  | ok fn =>
    rw [h1] at h
    dsimp only at h
    cases h2 : getF (forwardFeatures gm.featureFns s.params li s.img).2 0 with
    | error e => rw [h2] at h; cases h
    | ok t4 =>
      rw [h2] at h
      dsimp only at h
      cases h3 : getF t4 0 with
      | error e => rw [h3] at h; cases h
      | ok chw =>
        rw [h3] at h
        dsimp only at h
        cases h4 : getF chw ki with
        | error e => rw [h4] at h; cases h
        | ok spatial =>
          rw [h4] at h
          dsimp only at h
          cases h
          refine ⟨rfl, by simp, by simp [stepBlock, List.append_assoc], ?_⟩
          exact ⟨_, rfl⟩

/-! ### Loop combinators -/

lemma loopE_congr (f g : RunS → Except PyErr RunS) (h : ∀ s, f s = g s) :
    ∀ (n : ℕ) (s : RunS), loopE f n s = loopE g n s := by
  intro n
  induction n with
  | zero => intro s; rfl
  | succ n ih =>
    intro s
    unfold loopE
    rw [h s]
    cases g s with
    | error e => rfl
    | ok s1 => exact ih s1

lemma forE_congr (f g : ℕ → RunS → Except PyErr RunS)
    (h : ∀ j s, f j s = g j s) :
    ∀ (js : List ℕ) (s : RunS), forE f js s = forE g js s := by
  intro js
  induction js with
  | nil => intro s; rfl
  | cons j js ih =>
    intro s
    unfold forE
    rw [h j s]
    cases g j s with
    | error e => rfl
    | ok s1 => exact ih s1

lemma loopE_pres (f : RunS → Except PyErr RunS) (Q : RunS → Prop)
    (hf : ∀ s s1, f s = Except.ok s1 → Q s → Q s1) :
    ∀ (n : ℕ) (s s' : RunS), loopE f n s = Except.ok s' → Q s → Q s' := by
  intro n
  induction n with
  | zero => intro s s' h hQ; cases h; exact hQ
  | succ n ih =>
    intro s s' h hQ
    unfold loopE at h
    cases hfs : f s with
    | error e => rw [hfs] at h; cases h
    | ok s1 => rw [hfs] at h; exact ih s1 s' h (hf s s1 hfs hQ)

lemma loopE_events (f : RunS → Except PyErr RunS) (blk : List Event)
    (hf : ∀ s s1, f s = Except.ok s1 → s1.events = s.events ++ blk) :
    ∀ (n : ℕ) (s s' : RunS), loopE f n s = Except.ok s' →
      s'.events = s.events ++ (List.replicate n blk).flatten := by
  intro n
  induction n with
  | zero => intro s s' h; cases h; simp
  | succ n ih =>
    intro s s' h
    unfold loopE at h
    cases hfs : f s with
    | error e => rw [hfs] at h; cases h
    | ok s1 =>
      rw [hfs] at h
      rw [ih s1 s' h, hf s s1 hfs, List.replicate_succ, List.flatten_cons,
        List.append_assoc]

lemma forE_pres (f : ℕ → RunS → Except PyErr RunS) (Q : RunS → Prop)
    (hf : ∀ j s s1, f j s = Except.ok s1 → Q s → Q s1) :
    ∀ (js : List ℕ) (s s' : RunS), forE f js s = Except.ok s' → Q s → Q s' := by
  intro js
  induction js with
  | nil => intro s s' h hQ; cases h; exact hQ
  | cons j js ih =>
    intro s s' h hQ
    unfold forE at h
    cases hfs : f j s with
    | error e => rw [hfs] at h; cases h
    | ok s1 => rw [hfs] at h; exact ih s1 s' h (hf j s s1 hfs hQ)

lemma forE_events (f : ℕ → RunS → Except PyErr RunS) (blk : ℕ → List Event)
    (hf : ∀ j s s1, f j s = Except.ok s1 → s1.events = s.events ++ blk j) :
    ∀ (js : List ℕ) (s s' : RunS), forE f js s = Except.ok s' →
      s'.events = s.events ++ js.flatMap blk := by
  intro js
  induction js with
  | nil => intro s s' h; cases h; simp
  | cons j js ih =>
    intro s s' h
    unfold forE at h
    cases hfs : f j s with
    | error e => rw [hfs] at h; cases h
    | ok s1 =>
      rw [hfs] at h
      rw [ih s1 s' h, hf j s s1 hfs, List.flatMap_cons, List.append_assoc]

lemma forE_last (f : ℕ → RunS → Except PyErr RunS) (P : ℕ → RunS → Prop)
    (hf : ∀ j s s1, f j s = Except.ok s1 → P j s1) :
    ∀ (js : List ℕ) (s s' : RunS) (j : ℕ), forE f js s = Except.ok s' →
      js.getLast? = some j → P j s' := by
  intro js
  induction js with
  | nil => intro s s' j _ hl; cases hl
  | cons j0 js ih =>
    intro s s' j h hl
    unfold forE at h
    cases hfs : f j0 s with
    | error e => rw [hfs] at h; cases h
    | ok s1 =>
      rw [hfs] at h
      cases js with
      | nil =>
        cases h
        have hj : j = j0 := by simpa using hl.symm
        rw [hj]
        exact hf j0 s s' hfs
      | cons j1 js' =>
        have hl' : (j1 :: js').getLast? = some j := by
          simpa [List.getLast?_cons_cons] using hl
        exact ih s1 s' j h hl'

/-! ### Shape lemmas -/

lemma toCHW_shape (x : Image) (h w c : ℕ) (hsh : Shape3 x h w c)
    (hh : 0 < h) (hw : 0 < w) : Shape3 (toCHW x) c h w := by
  obtain ⟨hx, hrows⟩ := hsh
  cases x with
  | nil => simp at hx; omega
  | cons row rows =>
    obtain ⟨hwlen, hpx⟩ := hrows row (by simp)
    cases row with
    | nil => simp at hwlen; omega
    | cons px pxs =>
      have hc : px.length = c := hpx px (by simp)
      unfold toCHW
      dsimp only
      refine ⟨by simp [hc], ?_⟩
      intro m hm
      obtain ⟨c0, _, rfl⟩ := List.mem_map.mp hm
      refine ⟨by simpa using hx, ?_⟩
      intro r hr
      obtain ⟨row0, hrow0, rfl⟩ := List.mem_map.mp hr
      simpa using (hrows row0 hrow0).1

lemma toHWC_shape (t : Tensor3) (c h w : ℕ) (hsh : Shape3 t c h w)
    (hc : 0 < c) (hh : 0 < h) : Shape3 (toHWC t) h w c := by
  obtain ⟨ht, hms⟩ := hsh
  cases t with
  | nil => simp at ht; omega
  | cons m ms =>
    obtain ⟨hmlen, hrs⟩ := hms m (by simp)
    cases m with
    | nil => simp at hmlen; omega
    | cons r rs =>
      have hwr : r.length = w := hrs r (by simp)
      unfold toHWC
      dsimp only
      refine ⟨by simp [hmlen], ?_⟩
      intro row hrow
      obtain ⟨i, _, rfl⟩ := List.mem_map.mp hrow
      refine ⟨by simp [hwr], ?_⟩
      intro px hpxm
      obtain ⟨j, _, rfl⟩ := List.mem_map.mp hpxm
      simpa using ht

lemma mapChanP_shape (f : ℕ → ℝ → ℝ) (x : Image) (a b c : ℕ)
    (hsh : Shape3 x a b c) : Shape3 (mapChanP f x) a b c := by
  obtain ⟨hx, hrows⟩ := hsh
  unfold mapChanP
  refine ⟨by simpa using hx, ?_⟩
  intro row hrow
  obtain ⟨row0, hrow0, rfl⟩ := List.mem_map.mp hrow
  refine ⟨by simpa using (hrows row0 hrow0).1, ?_⟩
  intro px hpxm
  obtain ⟨px0, hpx0, rfl⟩ := List.mem_map.mp hpxm
  simpa using (hrows row0 hrow0).2 px0 hpx0

lemma normalizeFinal_shape (x : Image) (a b c : ℕ) (hsh : Shape3 x a b c) :
    Shape3 (normalizeFinal x) a b c := by
  unfold normalizeFinal
  dsimp only
  exact mapChanP_shape _ _ _ _ _
    (mapChanP_shape _ _ _ _ _
      (mapChanP_shape _ _ _ _ _ (mapChanP_shape _ _ _ _ _ hsh)))

/-- The pixel-length-3 and spatial-nonemptiness facts a `Shape3` gives. -/
lemma shape3_pxlen (x : Image) (a b : ℕ) (hsh : Shape3 x a b 3) :
    ∀ row ∈ x, ∀ px ∈ row, px.length = 3 := by
  intro row hrow px hp
  exact (hsh.2 row hrow).2 px hp

lemma shape3_has_px (x : Image) (a b c : ℕ) (hsh : Shape3 x a b c)
    (ha : 0 < a) (hb : 0 < b) :
    ∃ row ∈ x, ∃ px, px ∈ row := by
  obtain ⟨hx, hrows⟩ := hsh
  cases x with
  | nil => simp at hx; omega
  | cons row rows =>
    obtain ⟨hwlen, _⟩ := hrows row (by simp)
    cases row with
    | nil => simp at hwlen; omega
    | cons px pxs => exact ⟨px :: pxs, by simp, px, by simp⟩

/-! ### The resize sides -/

lemma szFn_eq_floor (uf : ℚ) (imsize j : ℕ) (huf : 1 ≤ uf) :
    szFn uf imsize j = (⌊uf ^ j * (imsize : ℚ)⌋).toNat := by
  unfold szFn pyTruncQ
  have h0 : (0 : ℚ) ≤ uf ^ j * (imsize : ℚ) :=
    mul_nonneg (pow_nonneg (le_trans zero_le_one huf) j) (Nat.cast_nonneg _)
  rw [if_pos h0]

/-- For `upscaling_factor ≥ 1` the sequence of sides is nondecreasing. -/
lemma szFn_mono (uf : ℚ) (imsize j : ℕ) (huf : 1 ≤ uf) :
    szFn uf imsize j ≤ szFn uf imsize (j + 1) := by
  rw [szFn_eq_floor uf imsize j huf, szFn_eq_floor uf imsize (j + 1) huf]
  apply Int.toNat_le_toNat
  apply Int.floor_le_floor
  apply mul_le_mul_of_nonneg_right _ (Nat.cast_nonneg _)
  exact pow_le_pow_right₀ huf (by omega)

lemma szFn_one (ims j : ℕ) : szFn 1 ims j = ims := by
  unfold szFn pyTruncQ
  rw [one_pow, one_mul,
    if_pos (by exact_mod_cast Nat.zero_le ims : (0 : ℚ) ≤ (ims : ℚ))]
  rw [Int.floor_natCast]
  simp

/-! ### Outer iterations and the whole run -/

lemma outerPrep_fields (L : Libs) (imsize : ℕ) (uf : ℚ) (j : ℕ) (s : RunS) :
    (outerPrep L imsize uf j s).params = s.params ∧
    (outerPrep L imsize uf j s).hooks = s.hooks ∧
    (outerPrep L imsize uf j s).events =
      s.events ++ [Event.resize (szFn uf imsize j)] := by
  unfold outerPrep
  exact ⟨rfl, rfl, rfl⟩

lemma outerPrep_img_shape (L : Libs) (imsize : ℕ) (uf : ℚ) (j : ℕ) (s : RunS)
    (hres : ∀ x h w, Shape3 (L.skResize x h w) h w 3)
    (hsz : 0 < szFn uf imsize j) :
    Shape4 (outerPrep L imsize uf j s).img 1 3
      (szFn uf imsize j) (szFn uf imsize j) := by
  unfold outerPrep
  dsimp only
  refine ⟨rfl, ?_⟩
  intro m hm
  rw [unsqueezeT, List.mem_singleton] at hm
  subst hm
  exact toCHW_shape _ _ _ _ (hres _ _ _) hsz hsz

lemma outerIter_params (L : Libs) (gm : Model) (li ki nst imsize : ℕ)
    (uf : ℚ) (j : ℕ) (s s1 : RunS)
    (h : outerIter L gm li ki nst imsize uf j s = Except.ok s1) :
    s1.params = s.params := by
  unfold outerIter innerLoop at h
  have := loopE_pres (innerStep L gm li ki) (fun t => t.params = s.params)
    (fun t t1 ht hQ => by dsimp only; dsimp only at hQ; rw [(innerStep_inv L gm li ki t t1 ht).1, hQ])
    nst _ s1 h (outerPrep_fields L imsize uf j s).1
  exact this

lemma outerIter_hooks (L : Libs) (gm : Model) (li ki nst imsize : ℕ)
    (uf : ℚ) (j : ℕ) (s s1 : RunS)
    (h : outerIter L gm li ki nst imsize uf j s = Except.ok s1) :
    s1.hooks = s.hooks := by
  unfold outerIter innerLoop at h
  have := loopE_pres (innerStep L gm li ki) (fun t => t.hooks = s.hooks)
    (fun t t1 ht hQ => by dsimp only; dsimp only at hQ; rw [(innerStep_inv L gm li ki t t1 ht).2.1, hQ])
    nst _ s1 h (outerPrep_fields L imsize uf j s).2.1
  exact this

lemma outerIter_events (L : Libs) (gm : Model) (li ki nst imsize : ℕ)
    (uf : ℚ) (j : ℕ) (s s1 : RunS)
    (h : outerIter L gm li ki nst imsize uf j s = Except.ok s1) :
    s1.events = s.events ++ (Event.resize (szFn uf imsize j) :: innerTrace nst) := by
  unfold outerIter innerLoop at h
  have := loopE_events (innerStep L gm li ki) stepBlock
    (fun t t1 ht => (innerStep_inv L gm li ki t t1 ht).2.2.1)
    nst _ s1 h
  rw [this, (outerPrep_fields L imsize uf j s).2.2, List.append_assoc]
  rfl

lemma outerIter_shape (L : Libs) (gm : Model) (li ki nst imsize : ℕ)
    (uf : ℚ) (j : ℕ) (s s1 : RunS)
    (hres : ∀ x h w, Shape3 (L.skResize x h w) h w 3)
    (hadam : ∀ st p g n a b c, Shape4 p n a b c →
      Shape4 (L.adamStep st p g).1 n a b c)
    (h : outerIter L gm li ki nst imsize uf j s = Except.ok s1)
    (hsz : 0 < szFn uf imsize j) :
    Shape4 s1.img 1 3 (szFn uf imsize j) (szFn uf imsize j) := by
  unfold outerIter innerLoop at h
  refine loopE_pres (innerStep L gm li ki)
    (fun t => Shape4 t.img 1 3 (szFn uf imsize j) (szFn uf imsize j))
    ?_ nst _ s1 h (outerPrep_img_shape L imsize uf j s hres hsz)
  intro t t1 ht hQ
  obtain ⟨-, -, -, g, himg⟩ := innerStep_inv L gm li ki t t1 ht
  rw [himg]
  exact hadam _ _ _ _ _ _ _ hQ

lemma range_getLast (us : ℕ) (hus : 1 ≤ us) :
    (List.range us).getLast? = some (us - 1) := by
  cases us with
  | zero => omega
  | succ k =>
    rw [List.range_succ, List.getLast?_concat]
    rfl

lemma cfmRun_params (L : Libs) (gm : Model) (self : FeatureVisualizer)
    (li ki nst : ℕ) (gb : ℝ) (ims us : ℕ) (uf : ℚ) (s' : RunS)
    (h : cfmRun L gm self li ki nst gb ims us uf = Except.ok s') :
    s'.params = gm.featureParams := by
  unfold cfmRun outerLoop at h
  dsimp only at h
  exact forE_pres _ (fun t => t.params = gm.featureParams)
    (fun j s s1 hs hQ => by
      dsimp only
      dsimp only at hQ
      rw [outerIter_params L gm li ki nst ims uf j s s1 hs, hQ])
    _ _ s' h rfl

lemma cfmRun_hooks (L : Libs) (gm : Model) (self : FeatureVisualizer)
    (li ki nst : ℕ) (gb : ℝ) (ims us : ℕ) (uf : ℚ) (s' : RunS)
    (h : cfmRun L gm self li ki nst gb ims us uf = Except.ok s') :
    s'.hooks = 0 := by
  unfold cfmRun outerLoop at h
  dsimp only at h
  exact forE_pres _ (fun t => t.hooks = 0)
    (fun j s s1 hs hQ => by
      dsimp only
      dsimp only at hQ
      rw [outerIter_hooks L gm li ki nst ims uf j s s1 hs, hQ])
    _ _ s' h rfl

lemma cfmRun_events (L : Libs) (gm : Model) (self : FeatureVisualizer)
    (li ki nst : ℕ) (gb : ℝ) (ims us : ℕ) (uf : ℚ) (s' : RunS)
    (h : cfmRun L gm self li ki nst gb ims us uf = Except.ok s') :
    s'.events = cfmTrace uf ims nst us := by
  unfold cfmRun outerLoop at h
  dsimp only at h
  have := forE_events _ (fun j => Event.resize (szFn uf ims j) :: innerTrace nst)
    (fun j s s1 hs => outerIter_events L gm li ki nst ims uf j s s1 hs)
    _ _ s' h
  simpa [cfmTrace] using this

lemma cfmRun_shape (L : Libs) (gm : Model) (self : FeatureVisualizer)
    (li ki nst : ℕ) (gb : ℝ) (ims us : ℕ) (uf : ℚ) (s' : RunS)
    (hres : ∀ x h w, Shape3 (L.skResize x h w) h w 3)
    (hadam : ∀ st p g n a b c, Shape4 p n a b c →
      Shape4 (L.adamStep st p g).1 n a b c)
    (hus : 1 ≤ us)
    (h : cfmRun L gm self li ki nst gb ims us uf = Except.ok s')
    (hsz : 0 < szFn uf ims (us - 1)) :
    Shape4 s'.img 1 3 (szFn uf ims (us - 1)) (szFn uf ims (us - 1)) := by
  unfold cfmRun outerLoop at h
  dsimp only at h
  have := forE_last _
    (fun j t => 0 < szFn uf ims j →
      Shape4 t.img 1 3 (szFn uf ims j) (szFn uf ims j))
    (fun j s s1 hs hpos =>
      outerIter_shape L gm li ki nst ims uf j s s1 hres hadam hs hpos)
    _ _ s' (us - 1) h (range_getLast us hus)
  exact this hsz


/-! ### Error propagation -/

lemma loopE_err_first (f : RunS → Except PyErr RunS) (n : ℕ) (s : RunS)
    (e : PyErr) (h : f s = Except.error e) :
    loopE f (n + 1) s = Except.error e := by
  unfold loopE
  rw [h]

lemma forE_err_first (f : ℕ → RunS → Except PyErr RunS) (j : ℕ) (js : List ℕ)
    (s : RunS) (e : PyErr) (h : f j s = Except.error e) :
    forE f (j :: js) s = Except.error e := by
  unfold forE
  rw [h]

/-- With at least one upscaling step and one inner step, an out-of-range
`layer_index` makes `create_feature_maximizer` raise `IndexError` at the
hook registration of the very first inner iteration. -/
lemma cfm_err_of_bad_layer (L : Libs) (gm : Model) (self : FeatureVisualizer)
    (li ki nst : ℕ) (gb : ℝ) (ims us : ℕ) (uf : ℚ)
    (hli : gm.featureFns.length ≤ li) (hnst : 1 ≤ nst) (hus : 1 ≤ us) :
    create_feature_maximizer L gm self li ki nst gb ims us uf =
      Except.error PyErr.indexError := by
  obtain ⟨n, rfl⟩ : ∃ n, nst = n + 1 := ⟨nst - 1, by omega⟩
  obtain ⟨u, rfl⟩ : ∃ u, us = u + 1 := ⟨us - 1, by omega⟩
  unfold create_feature_maximizer cfmRun outerLoop
  dsimp only
  rw [List.range_succ_eq_map]
  rw [forE_err_first _ 0 _ _ PyErr.indexError ?_]
  · rfl
  · unfold outerIter innerLoop
    rw [loopE_err_first _ n _ PyErr.indexError ?_]
    exact innerStep_err_li L gm li ki _ hli

/-! ### Descent on the negated mean is ascent on the mean -/

/-- Under autograd's linearity in the sign of the loss, one inner step of the
notebook equals one spec-side gradient-ascent step. -/
lemma innerStep_eq_ascent (L : Libs) (gm : Model) (li ki : ℕ)
    (hgrad : ∀ (f : Tensor4 → ℝ) (x : Tensor4),
      L.gradFn (fun y => -(f y)) x = negT4 (L.gradFn f x)) (s : RunS) :
    innerStep L gm li ki s = ascentInnerStep L gm li ki s := by
  unfold innerStep ascentInnerStep
  dsimp only
  rw [hgrad]

/-- The whole run equals the spec-side gradient-ascent run. -/
lemma cfmRun_eq_ascentRun (L : Libs) (gm : Model) (self : FeatureVisualizer)
    (li ki nst : ℕ) (gb : ℝ) (ims us : ℕ) (uf : ℚ)
    (hgrad : ∀ (f : Tensor4 → ℝ) (x : Tensor4),
      L.gradFn (fun y => -(f y)) x = negT4 (L.gradFn f x)) :
    cfmRun L gm self li ki nst gb ims us uf =
      ascentRun L gm self li ki nst gb ims us uf := by
  unfold cfmRun ascentRun outerLoop
  dsimp only
  refine forE_congr _ _ ?_ _ _
  intro j s
  unfold outerIter innerLoop
  exact loopE_congr _ _ (innerStep_eq_ascent L gm li ki hgrad) nst _


/-! ### get_mean_layer_activations -/

lemma gmla_bad_path (L : Libs) (self : FeatureVisualizer) (p : String)
    (li ims : ℕ) (h : L.openImage p = none) :
    get_mean_layer_activations L self p li ims = Except.error PyErr.ioError := by
  unfold get_mean_layer_activations
  rw [h]

lemma gmla_bad_layer (L : Libs) (self : FeatureVisualizer) (p : String)
    (li ims : ℕ) (raw : Image) (h : L.openImage p = some raw)
    (hli : self.model.featureFns.length ≤ li) :
    get_mean_layer_activations L self p li ims =
      Except.error PyErr.indexError := by
  unfold get_mean_layer_activations
  rw [h]
  dsimp only
  rw [getF_err _ _ hli]

lemma gmla_ok (L : Libs) (self : FeatureVisualizer) (p : String)
    (li ims : ℕ) (raw : Image) (h : L.openImage p = some raw)
    (hli : li < self.model.featureFns.length) :
    get_mean_layer_activations L self p li ims =
      Except.ok ((layerActs self.model li (inputTensorOf L raw ims)).map meanT2) := by
  unfold get_mean_layer_activations
  rw [h]
  dsimp only
  rw [getF_ok _ _ hli]
  dsimp only
  rw [forwardFeatures_snd _ _ _ _ hli, getF_zero_cons]
  dsimp only
  rw [forwardVal_eq_map]
  unfold layerActs inputTensorOf squeezeT unsqueezeT
  rfl

/-! ### Concrete instances: facts about testLibs and the counterexample -/

lemma testLibs_hres : ∀ (x : Image) (h w : ℕ),
    Shape3 (testLibs.skResize x h w) h w 3 := by
  intro x h w
  refine ⟨by simp [testLibs], ?_⟩
  intro m hm
  rw [List.eq_of_mem_replicate hm]
  refine ⟨by simp, ?_⟩
  intro r hr
  rw [List.eq_of_mem_replicate hr]
  rfl

lemma negT4_zeros (x : Tensor4) : negT4 (zerosLike4 x) = zerosLike4 x := by
  simp [negT4, negT3, zerosLike4, zerosLike3, List.map_map, Function.comp]

lemma testLibs_hgrad : ∀ (f : Tensor4 → ℝ) (x : Tensor4),
    testLibs.gradFn (fun y => -(f y)) x = negT4 (testLibs.gradFn f x) := by
  intro f x
  show zerosLike4 x = negT4 (zerosLike4 x)
  rw [negT4_zeros]

lemma sameSh1_len (r : List ℝ) : (r.map (fun _ => (0 : ℝ))).length = r.length := by
  simp

lemma sameSh2_zeros (m : Tensor2) :
    List.Forall₂ (fun r s : List ℝ => r.length = s.length)
      (m.map (fun r => r.map (fun _ => (0 : ℝ)))) m := by
  induction m with
  | nil => exact List.Forall₂.nil
  | cons r rs ih => exact List.Forall₂.cons (by simp) ih

lemma sameSh3_zeros (t : Tensor3) : SameSh3 (zerosLike3 t) t := by
  unfold SameSh3 zerosLike3
  induction t with
  | nil => exact List.Forall₂.nil
  | cons m ms ih => exact List.Forall₂.cons (sameSh2_zeros m) ih

lemma sameSh4_zeros (t : Tensor4) : SameSh4 (zerosLike4 t) t := by
  unfold SameSh4 zerosLike4
  induction t with
  | nil => exact List.Forall₂.nil
  | cons m ms ih => exact List.Forall₂.cons (sameSh3_zeros m) ih

lemma negSh2 (m n : Tensor2)
    (h : List.Forall₂ (fun r s : List ℝ => r.length = s.length) m n) :
    List.Forall₂ (fun r s : List ℝ => r.length = s.length)
      (m.map (fun r => r.map Neg.neg)) n := by
  induction h with
  | nil => exact List.Forall₂.nil
  | cons h1 h2 ih => exact List.Forall₂.cons (by simpa using h1) ih

lemma negSh3 (a b : Tensor3) (h : SameSh3 a b) : SameSh3 (negT3 a) b := by
  unfold SameSh3 at h ⊢
  unfold negT3
  induction h with
  | nil => exact List.Forall₂.nil
  | cons h1 h2 ih => exact List.Forall₂.cons (negSh2 _ _ h1) ih

lemma negSh4 (a b : Tensor4) (h : SameSh4 a b) : SameSh4 (negT4 a) b := by
  unfold SameSh4 at h ⊢
  unfold negT4
  induction h with
  | nil => exact List.Forall₂.nil
  | cons h1 h2 ih => exact List.Forall₂.cons (negSh3 _ _ h1) ih

lemma initVal_zero : initVal 0 = 0 := by
  unfold initVal pyTruncR
  rw [if_pos le_rfl]
  norm_num

lemma initVal_102 : initVal 102 = 2 / 5 := by
  unfold initVal pyTruncR
  rw [if_pos (by norm_num : (0 : ℝ) ≤ 102)]
  have h1 : ⌊(102 : ℝ)⌋ = 102 := by
    rw [show (102 : ℝ) = ((102 : ℤ) : ℝ) by norm_num]
    exact Int.floor_intCast 102
  rw [h1]
  norm_num

lemma initT_eval : initTensor cexLibs 2 =
    List.replicate 3 [[(0 : ℝ), 0], [2 / 5, 2 / 5]] := by
  unfold initTensor
  show (cexDraws.map fun m => m.map fun r => r.map initVal) = _
  unfold cexDraws
  rw [List.map_replicate]
  simp only [List.map_cons, List.map_nil, initVal_zero, initVal_102]

lemma cex_cfmRun : cfmRun cexLibs idModel fvId 0 0 0 0 2 1 1 =
    Except.ok cexS := by
  unfold cfmRun outerLoop
  dsimp only
  rw [show List.range 1 = [0] from rfl]
  unfold forE outerIter innerLoop loopE outerPrep
  dsimp only
  rw [initT_eval, szFn_one]
  rfl

lemma pre_round : toHWC (squeezeT cexS.img) = cexPre := rfl

lemma cex_cfm : create_feature_maximizer cexLibs idModel fvId 0 0 0 0 2 1 1 =
    Except.ok (normalizeFinal cexPre) := by
  unfold create_feature_maximizer
  rw [cex_cfmRun]
  rfl

lemma cexPre_shape : Shape3 cexPre 2 2 3 := by
  refine ⟨rfl, ?_⟩
  intro m hm
  unfold cexPre at hm
  simp only [List.mem_cons, List.not_mem_nil, or_false] at hm
  rcases hm with rfl | rfl <;>
  · refine ⟨rfl, ?_⟩
    intro r hr
    simp only [List.mem_cons, List.not_mem_nil, or_false] at hr
    rcases hr with rfl | rfl <;> rfl

lemma cex_chan0 : chanVals cexPre 0 = [0, 0, 2 / 5, 2 / 5] := rfl

lemma cex_meanlit : meanL [(0 : ℝ), 0, 2 / 5, 2 / 5] = 1 / 5 := by
  unfold meanL
  norm_num

lemma cex_std0 : stdL ((chanVals cexPre 0).map
    (fun w => w - meanL (chanVals cexPre 0))) = 1 / 5 := by
  rw [cex_chan0, cex_meanlit]
  have h : ([(0 : ℝ), 0, 2 / 5, 2 / 5].map (fun w => w - 1 / 5)) =
      [-(1 / 5), -(1 / 5), 1 / 5, 1 / 5] := by
    norm_num
  rw [h]
  unfold stdL
  have hv : varL [-(1 / 5 : ℝ), -(1 / 5), 1 / 5, 1 / 5] = 1 / 25 := by
    unfold varL meanL
    norm_num
  rw [hv, show (1 / 25 : ℝ) = (1 / 5) ^ 2 by norm_num]
  exact Real.sqrt_sq (by norm_num)


/-! ### Channel extraction through the model, concrete runs -/

lemma toCHW_chan (x : Image) (a b c : ℕ) (hsh : Shape3 x a b 3)
    (ha : 0 < a) (hb : 0 < b) (hc : c < 3) :
    (toCHW x).getD c [] =
      x.map (fun row => row.map (fun px => px.getD c 0)) := by
  obtain ⟨hx, hrows⟩ := hsh
  cases x with
  | nil => simp at hx; omega
  | cons row rows =>
    obtain ⟨hwlen, hpx⟩ := hrows row (by simp)
    cases row with
    | nil => simp at hwlen; omega
    | cons px pxs =>
      have hpl : px.length = 3 := hpx px (by simp)
      unfold toCHW
      dsimp only
      rw [show (List.headD (((px :: pxs) :: rows).headD []) []).length = 3
        from hpl]
      have hlt : c < (List.range 3).length := by simpa using hc
      rw [List.getD_eq_getElem _ _ (by simpa using hc), List.getElem_map,
        List.getElem_range]

lemma meanT2_chan (x : Image) (c : ℕ) :
    meanT2 (x.map (fun row => row.map (fun px => px.getD c 0))) =
      meanL (chanVals x c) := by
  unfold meanT2 chanVals
  rw [List.flatMap_def]

lemma test_cfmRun : cfmRun testLibs idModel fvId 0 0 1 0 1 2 1 =
    Except.ok testS := by
  unfold cfmRun outerLoop
  dsimp only
  rw [show List.range 2 = [0, 1] from rfl]
  simp only [forE, outerIter, innerLoop, loopE, outerPrep, szFn_one]
  rfl

lemma test_cfm : create_feature_maximizer testLibs idModel fvId 0 0 1 0 1 2 1 =
    Except.ok (normalizeFinal (toHWC (squeezeT testS.img))) := by
  unfold create_feature_maximizer
  rw [test_cfmRun]
  rfl

lemma cex_out_shape : Shape3 (normalizeFinal cexPre) 2 2 3 :=
  normalizeFinal_shape cexPre 2 2 3 cexPre_shape

lemma cex_chan0_ne : chanVals cexPre 0 ≠ [] := by
  rw [cex_chan0]
  simp

lemma cex_std0_ne : stdL ((chanVals cexPre 0).map
    (fun w => w - meanL (chanVals cexPre 0))) ≠ 0 := by
  rw [cex_std0]
  norm_num

lemma meanAct_out_eq :
    meanActOnImage idModel 0 0 (normalizeFinal cexPre) = vggMean.getD 0 0 := by
  unfold meanActOnImage unitMeanAct
  have hfv : forwardVal (idModel.featureFns.take (0 + 1)) idModel.featureParams
      (unsqueezeT (toCHW (normalizeFinal cexPre))) =
      [toCHW (normalizeFinal cexPre)] := by
    rw [forwardVal_eq_map]
    rfl
  rw [hfv]
  rw [show ([toCHW (normalizeFinal cexPre)].headD []) =
    toCHW (normalizeFinal cexPre) from rfl]
  rw [toCHW_chan (normalizeFinal cexPre) 2 2 0 cex_out_shape
    (by norm_num) (by norm_num) (by norm_num)]
  rw [meanT2_chan]
  exact (normalizeFinal_stats cexPre 0 (by norm_num)
    (shape3_pxlen cexPre 2 2 cexPre_shape) cex_chan0_ne cex_std0_ne).1

lemma meanAct_cand_eq : meanActOnImage idModel 0 0 cexCandidate = 1 := by
  unfold meanActOnImage unitMeanAct
  rw [show ((forwardVal (idModel.featureFns.take (0 + 1)) idModel.featureParams
      (unsqueezeT (toCHW cexCandidate))).headD []).getD 0 [] =
      [[(1 : ℝ), 1], [1, 1]] from rfl]
  unfold meanT2 meanL
  norm_num

lemma cexCandidate_shape : Shape3 cexCandidate 2 2 3 := by
  refine ⟨rfl, ?_⟩
  intro m hm
  rw [List.eq_of_mem_replicate hm]
  refine ⟨rfl, ?_⟩
  intro r hr
  rw [List.eq_of_mem_replicate hr]
  rfl


/-! ### The claims -/

/-- Claim C1: in every inner optimization step of `create_feature_maximizer`,
the loss is the negation of the mean of the intermediate tensor produced by
layer `layer_index` of the model's features, restricted to channel
`kernel_index`, read out via a forward hook that fires exactly once during
that step's forward pass; the optimizer step is therefore driven by the
negated gradient of that mean activation — gradient ascent on it. -/
theorem claim_C1 (L : Libs) (gm : Model) (li ki : ℕ) (s : RunS)
    (hli : li < gm.featureFns.length) (himg : s.img ≠ [])
    (hki : ki < ((forwardVal (gm.featureFns.take (li + 1)) s.params
      s.img).headD []).length)
    (hgrad : ∀ (f : Tensor4 → ℝ) (x : Tensor4),
      L.gradFn (fun y => -(f y)) x = negT4 (L.gradFn f x))
    (hgsh : ∀ f : Tensor4 → ℝ, SameSh4 (L.gradFn f s.img) s.img) :
    (forwardFeatures gm.featureFns s.params li s.img).2 =
      [forwardVal (gm.featureFns.take (li + 1)) s.params s.img] ∧
    innerStep L gm li ki s = Except.ok (stepResult L gm li ki s) ∧
    (stepResult L gm li ki s).losses =
      s.losses ++ [-(unitMeanAct gm.featureFns s.params li ki s.img)] ∧
    (stepResult L gm li ki s).img =
      (L.adamStep s.adamSt s.img
        (negT4 (L.gradFn (unitMeanAct gm.featureFns s.params li ki)
          s.img))).1 := by
  refine ⟨forwardFeatures_snd _ _ _ _ hli,
    innerStep_ok L gm li ki s hli himg hki, rfl, ?_⟩
  unfold stepResult
  dsimp only
  rw [hgrad (unitMeanAct gm.featureFns s.params li ki) s.img]
  rw [addzero4 _ _ (negSh4 _ _
    (hgsh (unitMeanAct gm.featureFns s.params li ki)))]

theorem claim_C1_witness :
    0 < idModel.featureFns.length ∧
    ((forwardFeatures idModel.featureFns witS.params 0 witS.img).2 =
      [forwardVal (idModel.featureFns.take (0 + 1)) witS.params witS.img] ∧
    innerStep testLibs idModel 0 0 witS =
      Except.ok (stepResult testLibs idModel 0 0 witS) ∧
    (stepResult testLibs idModel 0 0 witS).losses =
      witS.losses ++ [-(unitMeanAct idModel.featureFns witS.params 0 0
        witS.img)] ∧
    (stepResult testLibs idModel 0 0 witS).img =
      (testLibs.adamStep witS.adamSt witS.img
        (negT4 (testLibs.gradFn (unitMeanAct idModel.featureFns witS.params
          0 0) witS.img))).1) :=
  ⟨by decide,
   claim_C1 testLibs idModel 0 0 witS (by decide) (by simp [witS]) (by decide)
     testLibs_hgrad
     (fun f => by
       show SameSh4 (zerosLike4 witS.img) witS.img
       exact sameSh4_zeros _)⟩

/-- Claim C2 (code bug in the source): `create_feature_maximizer` does NOT
run the model stored as `self.model`; its body closes over the notebook-global
variable `model`.  Formally: the result is entirely independent of `self`,
and with a global model whose `features` stack is empty the call raises
`IndexError` even though `self.model` does contain the requested layer,
while the very same call with the global model holding that layer
succeeds. -/
theorem claim_C2 :
    (∀ (L : Libs) (gm : Model) (self1 self2 : FeatureVisualizer)
       (li ki nst : ℕ) (gb : ℝ) (ims us : ℕ) (uf : ℚ),
       create_feature_maximizer L gm self1 li ki nst gb ims us uf =
         create_feature_maximizer L gm self2 li ki nst gb ims us uf) ∧
    create_feature_maximizer testLibs emptyModel fvId 0 0 1 0 1 2 1 =
      Except.error PyErr.indexError ∧
    0 < fvId.model.featureFns.length ∧
    create_feature_maximizer testLibs idModel fvId 0 0 1 0 1 2 1 =
      Except.ok (normalizeFinal (toHWC (squeezeT testS.img))) := by
  refine ⟨fun L gm self1 self2 li ki nst gb ims us uf => rfl, ?_,
    by decide, test_cfm⟩
  exact cfm_err_of_bad_layer testLibs emptyModel fvId 0 0 1 0 1 2 1
    (by decide) (by decide) (by decide)

/-- Claim C3: the nested loop structure — the event trace is exactly
`upscaling_steps` resize events (to side `int(upscaling_factor**j * imsize)`
at outer iteration `j`), each followed by `n_steps` blocks consisting of one
zero-grad, exactly one forward pass, one backward pass and one optimizer
step; for `upscaling_factor ≥ 1` the sides are nondecreasing; and on normal
return the image has spatial shape `(s, s, 3)` with
`s = int(upscaling_factor**(upscaling_steps-1) * imsize)`. -/
theorem claim_C3 (L : Libs) (gm : Model) (self : FeatureVisualizer)
    (li ki nst : ℕ) (gb : ℝ) (ims us : ℕ) (uf : ℚ) (s' : RunS)
    (hres : ∀ x h w, Shape3 (L.skResize x h w) h w 3)
    (hadam : ∀ st p g n a b c, Shape4 p n a b c →
      Shape4 (L.adamStep st p g).1 n a b c)
    (hus : 1 ≤ us)
    (h : cfmRun L gm self li ki nst gb ims us uf = Except.ok s')
    (hsz : 0 < szFn uf ims (us - 1)) :
    s'.events = cfmTrace uf ims nst us ∧
    (1 ≤ uf → ∀ j, szFn uf ims j ≤ szFn uf ims (j + 1)) ∧
    create_feature_maximizer L gm self li ki nst gb ims us uf =
      Except.ok (normalizeFinal (toHWC (squeezeT s'.img))) ∧
    Shape3 (normalizeFinal (toHWC (squeezeT s'.img)))
      (szFn uf ims (us - 1)) (szFn uf ims (us - 1)) 3 := by
  have hsh := cfmRun_shape L gm self li ki nst gb ims us uf s' hres hadam
    hus h hsz
  refine ⟨cfmRun_events L gm self li ki nst gb ims us uf s' h,
    fun huf j => szFn_mono uf ims j huf, ?_, ?_⟩
  · unfold create_feature_maximizer
    rw [h]
    rfl
  · obtain ⟨hlen, hmem⟩ := hsh
    cases himg : s'.img with
    | nil => rw [himg] at hlen; simp at hlen
    | cons m rest =>
      rw [himg] at hlen hmem
      have hrest : rest = [] := by
        cases rest with
        | nil => rfl
        | cons a b => simp at hlen
      subst hrest
      have hm3 := hmem m (by simp)
      show Shape3 (normalizeFinal (toHWC (squeezeT [m]))) _ _ 3
      rw [show squeezeT [m] = m from rfl]
      exact normalizeFinal_shape _ _ _ _
        (toHWC_shape m _ _ _ hm3 (by norm_num) hsz)

theorem claim_C3_witness :
    ∃ s', cfmRun testLibs idModel fvId 0 0 1 0 1 2 1 = Except.ok s' ∧
      (1 : ℕ) ≤ 2 ∧ 0 < szFn 1 1 (2 - 1) ∧
      (s'.events = cfmTrace 1 1 1 2 ∧
       ((1 : ℚ) ≤ 1 → ∀ j, szFn 1 1 j ≤ szFn 1 1 (j + 1)) ∧
       create_feature_maximizer testLibs idModel fvId 0 0 1 0 1 2 1 =
         Except.ok (normalizeFinal (toHWC (squeezeT s'.img))) ∧
       Shape3 (normalizeFinal (toHWC (squeezeT s'.img)))
         (szFn 1 1 (2 - 1)) (szFn 1 1 (2 - 1)) 3) := by
  have hsz : 0 < szFn 1 1 (2 - 1) := by rw [szFn_one]; norm_num
  exact ⟨testS, test_cfmRun, by norm_num, hsz,
    claim_C3 testLibs idModel fvId 0 0 1 0 1 2 1 testS testLibs_hres
      (fun st p g n a b c hp => hp) (by norm_num) test_cfmRun hsz⟩

/-- Claim C4: `create_feature_maximizer` leaves the pretrained model
unchanged — on normal return the model's parameters are exactly the ones it
started with (the optimizer only ever updates the input image, the single
tensor handed to `torch.optim.Adam`), and no forward hook registered by the
call remains installed. -/
theorem claim_C4 (L : Libs) (gm : Model) (self : FeatureVisualizer)
    (li ki nst : ℕ) (gb : ℝ) (ims us : ℕ) (uf : ℚ) (s' : RunS)
    (h : cfmRun L gm self li ki nst gb ims us uf = Except.ok s') :
    s'.params = gm.featureParams ∧ s'.hooks = 0 :=
  ⟨cfmRun_params L gm self li ki nst gb ims us uf s' h,
   cfmRun_hooks L gm self li ki nst gb ims us uf s' h⟩

theorem claim_C4_witness :
    ∃ s', cfmRun testLibs idModel fvId 0 0 1 0 1 2 1 = Except.ok s' ∧
      (s'.params = idModel.featureParams ∧ s'.hooks = 0) :=
  ⟨testS, test_cfmRun,
   claim_C4 testLibs idModel fvId 0 0 1 0 1 2 1 testS test_cfmRun⟩

/-- Claim C5, counterexample: the returned image does NOT maximize the mean
activation of the chosen unit.  With a single identity feature layer, a run
of `create_feature_maximizer` returns a renormalized image whose channel-0
mean activation is 0.485, while the same-shape all-ones candidate achieves
mean activation 1. -/
theorem claim_C5_counterexample :
    create_feature_maximizer cexLibs idModel fvId 0 0 0 0 2 1 1 =
      Except.ok (normalizeFinal cexPre) ∧
    Shape3 cexCandidate 2 2 3 ∧ Shape3 (normalizeFinal cexPre) 2 2 3 ∧
    meanActOnImage idModel 0 0 (normalizeFinal cexPre) <
      meanActOnImage idModel 0 0 cexCandidate := by
  refine ⟨cex_cfm, cexCandidate_shape, cex_out_shape, ?_⟩
  rw [meanAct_out_eq, meanAct_cand_eq]
  norm_num [vggMean]

/-- Claim C5, amended: `create_feature_maximizer` synthesizes its result by
finitely many optimizer steps driven by the gradient of the chosen unit's
mean activation (gradient ascent, implemented as descent on the negated
mean), followed by a final renormalization; it coincides with the spec-side
gradient-ascent synthesizer, but does not guarantee the returned image
attains the maximal mean activation among images of its shape. -/
theorem claim_C5_theorem (L : Libs) (gm : Model) (self : FeatureVisualizer)
    (li ki nst : ℕ) (gb : ℝ) (ims us : ℕ) (uf : ℚ)
    (hgrad : ∀ (f : Tensor4 → ℝ) (x : Tensor4),
      L.gradFn (fun y => -(f y)) x = negT4 (L.gradFn f x)) :
    create_feature_maximizer L gm self li ki nst gb ims us uf =
      ascent_feature_maximizer L gm self li ki nst gb ims us uf := by
  unfold create_feature_maximizer ascent_feature_maximizer
  rw [cfmRun_eq_ascentRun L gm self li ki nst gb ims us uf hgrad]

theorem claim_C5_witness :
    create_feature_maximizer testLibs idModel fvId 0 0 1 0 1 2 1 =
      ascent_feature_maximizer testLibs idModel fvId 0 0 1 0 1 2 1 :=
  claim_C5_theorem testLibs idModel fvId 0 0 1 0 1 2 1 testLibs_hgrad

/-- Claim C6: neither method validates its arguments or catches exceptions —
an out-of-range `layer_index` makes `create_feature_maximizer` (as soon as
the first inner step registers the hook) and `get_mean_layer_activations`
propagate the library's `IndexError`, and an unopenable `image_path` makes
`get_mean_layer_activations` propagate the image library's error. -/
theorem claim_C6 :
    (∀ (L : Libs) (gm : Model) (self : FeatureVisualizer) (li ki nst : ℕ)
       (gb : ℝ) (ims us : ℕ) (uf : ℚ),
       gm.featureFns.length ≤ li → 1 ≤ nst → 1 ≤ us →
       create_feature_maximizer L gm self li ki nst gb ims us uf =
         Except.error PyErr.indexError) ∧
    (∀ (L : Libs) (self : FeatureVisualizer) (p : String) (li ims : ℕ),
       L.openImage p = none →
       get_mean_layer_activations L self p li ims =
         Except.error PyErr.ioError) ∧
    (∀ (L : Libs) (self : FeatureVisualizer) (p : String) (li ims : ℕ)
       (raw : Image),
       L.openImage p = some raw → self.model.featureFns.length ≤ li →
       get_mean_layer_activations L self p li ims =
         Except.error PyErr.indexError) :=
  ⟨fun L gm self li ki nst gb ims us uf h1 h2 h3 =>
     cfm_err_of_bad_layer L gm self li ki nst gb ims us uf h1 h2 h3,
   fun L self p li ims h => gmla_bad_path L self p li ims h,
   fun L self p li ims raw h hli => gmla_bad_layer L self p li ims raw h hli⟩

theorem claim_C6_witness :
    create_feature_maximizer testLibs emptyModel fvEmpty 5 0 1 0 2 1 1 =
      Except.error PyErr.indexError ∧
    get_mean_layer_activations testLibs fvId "missing.png" 0 224 =
      Except.error PyErr.ioError ∧
    get_mean_layer_activations testLibs fvEmpty "cat.jpg" 0 224 =
      Except.error PyErr.indexError :=
  ⟨claim_C6.1 testLibs emptyModel fvEmpty 5 0 1 0 2 1 1 (by decide)
     (by decide) (by decide),
   claim_C6.2.1 testLibs fvId "missing.png" 0 224 rfl,
   claim_C6.2.2 testLibs fvEmpty "cat.jpg" 0 224 catImg rfl (by decide)⟩

/-- Claim C7: the `gaussian_blur` parameter is never read — two runs that
agree on everything (including the libraries, hence the random draws) except
`gaussian_blur` return identical results, and no blurring is applied. -/
theorem claim_C7 : ∀ (L : Libs) (gm : Model) (self : FeatureVisualizer)
    (li ki nst : ℕ) (gb1 gb2 : ℝ) (ims us : ℕ) (uf : ℚ),
    create_feature_maximizer L gm self li ki nst gb1 ims us uf =
      create_feature_maximizer L gm self li ki nst gb2 ims us uf :=
  fun _ _ _ _ _ _ _ _ _ _ _ => rfl

/-- Claim C8: on normal return, provided each color channel of the optimized
image is spatially nonempty with nonzero (centered) standard deviation, the
returned image's channel `c` has exact mean `[0.485, 0.456, 0.406][c]` and
exact standard deviation `[0.229, 0.224, 0.225][c]`. -/
theorem claim_C8 (L : Libs) (gm : Model) (self : FeatureVisualizer)
    (li ki nst : ℕ) (gb : ℝ) (ims us : ℕ) (uf : ℚ) (s' : RunS)
    (h : cfmRun L gm self li ki nst gb ims us uf = Except.ok s')
    (hpx : ∀ row ∈ toHWC (squeezeT s'.img), ∀ px ∈ row, px.length = 3)
    (c : ℕ) (hc : c < 3)
    (hne : 0 < (chanVals (toHWC (squeezeT s'.img)) c).length)
    (hstd : stdL ((chanVals (toHWC (squeezeT s'.img)) c).map
      (fun w => w - meanL (chanVals (toHWC (squeezeT s'.img)) c))) ≠ 0) :
    create_feature_maximizer L gm self li ki nst gb ims us uf =
      Except.ok (normalizeFinal (toHWC (squeezeT s'.img))) ∧
    meanL (chanVals (normalizeFinal (toHWC (squeezeT s'.img))) c) =
      vggMean.getD c 0 ∧
    stdL (chanVals (normalizeFinal (toHWC (squeezeT s'.img))) c) =
      vggStd.getD c 0 := by
  have hne2 : chanVals (toHWC (squeezeT s'.img)) c ≠ [] := by
    intro h0
    rw [h0] at hne
    simp at hne
  refine ⟨?_, normalizeFinal_stats _ c hc hpx hne2 hstd⟩
  unfold create_feature_maximizer
  rw [h]
  rfl

theorem claim_C8_witness :
    ∃ s', cfmRun cexLibs idModel fvId 0 0 0 0 2 1 1 = Except.ok s' ∧
      0 < (chanVals (toHWC (squeezeT s'.img)) 0).length ∧
      stdL ((chanVals (toHWC (squeezeT s'.img)) 0).map
        (fun w => w - meanL (chanVals (toHWC (squeezeT s'.img)) 0))) ≠ 0 ∧
      (create_feature_maximizer cexLibs idModel fvId 0 0 0 0 2 1 1 =
        Except.ok (normalizeFinal (toHWC (squeezeT s'.img))) ∧
       meanL (chanVals (normalizeFinal (toHWC (squeezeT s'.img))) 0) =
         vggMean.getD 0 0 ∧
       stdL (chanVals (normalizeFinal (toHWC (squeezeT s'.img))) 0) =
         vggStd.getD 0 0) := by
  have hpx : ∀ row ∈ toHWC (squeezeT cexS.img), ∀ px ∈ row, px.length = 3 := by
    rw [pre_round]
    exact shape3_pxlen cexPre 2 2 cexPre_shape
  have hne : 0 < (chanVals (toHWC (squeezeT cexS.img)) 0).length := by
    rw [pre_round, cex_chan0]
    norm_num
  have hstd : stdL ((chanVals (toHWC (squeezeT cexS.img)) 0).map
      (fun w => w - meanL (chanVals (toHWC (squeezeT cexS.img)) 0))) ≠ 0 := by
    rw [pre_round]
    exact cex_std0_ne
  exact ⟨cexS, cex_cfmRun, hne, hstd,
    claim_C8 cexLibs idModel fvId 0 0 0 0 2 1 1 cexS cex_cfmRun hpx 0
      (by norm_num) hne hstd⟩

/-- Claim C9: `get_mean_layer_activations` returns one entry per kernel
(output channel) of layer `layer_index`, entry `k` being the spatial mean of
channel `k` of that layer's activation on the image loaded from
`image_path`, resized to `imsize` and normalized with per-channel mean
`[0.485, 0.456, 0.406]` and std `[0.229, 0.224, 0.225]`. -/
theorem claim_C9 (L : Libs) (self : FeatureVisualizer) (p : String)
    (li ims : ℕ) (raw : Image) (h : L.openImage p = some raw)
    (hli : li < self.model.featureFns.length) :
    ∃ r, get_mean_layer_activations L self p li ims = Except.ok r ∧
      r.length = (layerActs self.model li (inputTensorOf L raw ims)).length ∧
      ∀ k, k < r.length → r.getD k 0 =
        meanT2 ((layerActs self.model li (inputTensorOf L raw ims)).getD
          k []) := by
  refine ⟨_, gmla_ok L self p li ims raw h hli, by simp, ?_⟩
  intro k hk
  rw [List.length_map] at hk
  rw [List.getD_eq_getElem _ _ (by simpa using hk), List.getElem_map,
    List.getD_eq_getElem _ _ hk]

theorem claim_C9_witness :
    ∃ r, get_mean_layer_activations testLibs fvId "cat.jpg" 0 224 =
      Except.ok r ∧
      r.length = (layerActs fvId.model 0
        (inputTensorOf testLibs catImg 224)).length ∧
      ∀ k, k < r.length → r.getD k 0 =
        meanT2 ((layerActs fvId.model 0
          (inputTensorOf testLibs catImg 224)).getD k []) :=
  claim_C9 testLibs fvId "cat.jpg" 0 224 catImg rfl (by decide)

end
